import Mathlib

set_option linter.unusedSectionVars false

/-
  Verification of the subLSTM cell family (src/subLSTM/torchscript/cell.py).

  Tensors of shape [B, N] are modelled as lists of B rows, each row a list
  of N entries.  The host engine's elementwise sigmoid and tanh are passed
  as function parameters `σ` and `τ`; machine floats are modelled by an
  arbitrary commutative ring (instantiated at ℚ for concrete evaluation and
  at ℝ for the analytic range invariants).
-/

namespace SubLSTMVerify

variable {α : Type} [CommRing α]

/-- Dot product of two rows, zero-padded at the shorter end
(the semantics of a single entry of `torch.mm`). -/
def dot : List α → List α → α
  | a :: as, b :: bs => a * b + dot as bs
  | _, _ => 0

/-- `torch.mm x w.t()`: row `b`, column `k` is the dot product of row `b`
of `x` with row `k` of `w`. -/
def mmT (x w : List (List α)) : List (List α) :=
  x.map fun r => w.map fun wr => dot r wr

/-- Broadcast addition of a bias vector to every row of a matrix
(`m + bias` with `bias` of shape [N] and `m` of shape [B,N]). -/
def addBias (m : List (List α)) (v : List α) : List (List α) :=
  m.map fun r => List.zipWith (· + ·) r v

/-- Elementwise matrix addition. -/
def matAdd (m n : List (List α)) : List (List α) :=
  List.zipWith (List.zipWith (· + ·)) m n

/-- Elementwise matrix subtraction. -/
def matSub (m n : List (List α)) : List (List α) :=
  List.zipWith (List.zipWith (· - ·)) m n

/-- Elementwise (Hadamard) matrix product. -/
def matHad (m n : List (List α)) : List (List α) :=
  List.zipWith (List.zipWith (· * ·)) m n

/-- Apply a scalar function to every entry (`tensor.sigmoid()`, `torch.tanh`). -/
def matMap (f : α → α) (m : List (List α)) : List (List α) :=
  m.map (List.map f)

/-- Broadcast multiplication of a vector of shape [H] against a matrix of
shape [B,H] (`v * m` with broadcasting over the batch axis). -/
def vecMulMat (v : List α) (m : List (List α)) : List (List α) :=
  m.map fun r => List.zipWith (· * ·) v r

/-- `torch.chunk(n, dim)` splits into `n` pieces of size `ceil(len / n)`
(the last piece possibly shorter). -/
def chunkSize (n len : Nat) : Nat := (len + n - 1) / n

/-- Piece `k` of `tensor.chunk(n)` applied to a single row. -/
def rowChunk (n k : Nat) (r : List α) : List α :=
  (r.drop (k * chunkSize n r.length)).take (chunkSize n r.length)

/-- Piece `k` of `tensor.chunk(n, 1)`: chunking a [B,L] matrix along the
feature axis. -/
def chunkCol (n k : Nat) (m : List (List α)) : List (List α) :=
  m.map (rowChunk n k)

/-- A matrix has shape [B, N]. -/
def matShape (m : List (List α)) (B N : Nat) : Prop :=
  m.length = B ∧ ∀ r ∈ m, r.length = N

/-! ### The five cell variants, translated from `cell.py` -/

/-- `SubLSTMCell` (the spec's BasicCell): four-gate rule with learned biases. -/
structure SubLSTMCell (α : Type) where
  input_size : Nat
  hidden_size : Nat
  weight_ih : List (List α)
  weight_hh : List (List α)
  bias_ih : List α
  bias_hh : List α

/-- The fused, sigmoided gate tensor of `SubLSTMCell.forward`:
`(mm(input, w_ih.t()) + bias_ih + mm(hx, w_hh.t()) + bias_hh).sigmoid()`. -/
def SubLSTMCell.gates (σ : α → α) (c : SubLSTMCell α) (input hx : List (List α)) :
    List (List α) :=
  matMap σ (addBias (matAdd (addBias (mmT input c.weight_ih) c.bias_ih)
    (mmT hx c.weight_hh)) c.bias_hh)

/-- `SubLSTMCell.forward` (cell.py lines 22-35). -/
def SubLSTMCell.forward (σ τ : α → α) (c : SubLSTMCell α) (input : List (List α))
    (state : List (List α) × List (List α)) :
    List (List α) × (List (List α) × List (List α)) :=
  let hx := state.1
  let cx := state.2
  let g := SubLSTMCell.gates σ c input hx
  let ingate := chunkCol 4 0 g
  let forgetgate := chunkCol 4 1 g
  let cellgate := chunkCol 4 2 g
  let outgate := chunkCol 4 3 g
  let cy := matAdd (matHad forgetgate cx) (matSub cellgate ingate)
  let hy := matSub (matMap τ cy) outgate
  (hy, (hy, cy))

/-- `LayerNormSubLSTMCell` (the spec's NormalizedCell): the three layernorms
are consumed as opaque per-row transforms, as the spec scopes them. -/
structure LayerNormSubLSTMCell (α : Type) where
  input_size : Nat
  hidden_size : Nat
  weight_ih : List (List α)
  weight_hh : List (List α)
  layernorm_i : List α → List α
  layernorm_h : List α → List α
  layernorm_c : List α → List α

/-- `(layernorm_i(mm(input, w_ih.t())) + layernorm_h(mm(hx, w_hh.t()))).sigmoid()`. -/
def LayerNormSubLSTMCell.gates (σ : α → α) (c : LayerNormSubLSTMCell α)
    (input hx : List (List α)) : List (List α) :=
  matMap σ (matAdd ((mmT input c.weight_ih).map c.layernorm_i)
    ((mmT hx c.weight_hh).map c.layernorm_h))

/-- The cell state computed at cell.py line 62:
`layernorm_c((forgetgate * cx) + (cellgate - ingate))`. -/
def LayerNormSubLSTMCell.cy (σ : α → α) (c : LayerNormSubLSTMCell α)
    (input hx cx : List (List α)) : List (List α) :=
  let g := LayerNormSubLSTMCell.gates σ c input hx
  (matAdd (matHad (chunkCol 4 1 g) cx)
    (matSub (chunkCol 4 2 g) (chunkCol 4 0 g))).map c.layernorm_c

/-- The hidden state computed at cell.py line 63: `tanh(cy) - outgate`. -/
def LayerNormSubLSTMCell.hy (σ τ : α → α) (c : LayerNormSubLSTMCell α)
    (input hx cx : List (List α)) : List (List α) :=
  matSub (matMap τ (LayerNormSubLSTMCell.cy σ c input hx cx))
    (chunkCol 4 3 (LayerNormSubLSTMCell.gates σ c input hx))

/-- `LayerNormSubLSTMCell.forward` (cell.py lines 51-65).  Line 65 reads
`return hy (hy, cy)` — the comma is missing, so the tensor `hy` is called
as a function and a TypeError is raised after `hy` and `cy` have been
computed; the call never returns a value, modelled as `none`. -/
def LayerNormSubLSTMCell.forward (σ τ : α → α) (c : LayerNormSubLSTMCell α)
    (input : List (List α)) (state : List (List α) × List (List α)) :
    Option (List (List α) × (List (List α) × List (List α))) :=
  let _hy := LayerNormSubLSTMCell.hy σ τ c input state.1 state.2
  none

/-- `fixSubLSTMCell` (the spec's FixedForgetCell): three-gate rule with a
standalone learned forget vector. -/
structure fixSubLSTMCell (α : Type) where
  input_size : Nat
  hidden_size : Nat
  weight_ih : List (List α)
  weight_hh : List (List α)
  bias_ih : List α
  bias_hh : List α
  forgetgate : List α

/-- The fused, sigmoided three-gate tensor of `fixSubLSTMCell.forward`. -/
def fixSubLSTMCell.gates (σ : α → α) (c : fixSubLSTMCell α) (input hx : List (List α)) :
    List (List α) :=
  matMap σ (addBias (matAdd (addBias (mmT input c.weight_ih) c.bias_ih)
    (mmT hx c.weight_hh)) c.bias_hh)

/-- `fixSubLSTMCell.forward` (cell.py lines 79-92). -/
def fixSubLSTMCell.forward (σ τ : α → α) (c : fixSubLSTMCell α) (input : List (List α))
    (state : List (List α) × List (List α)) :
    List (List α) × (List (List α) × List (List α)) :=
  let hx := state.1
  let cx := state.2
  let g := fixSubLSTMCell.gates σ c input hx
  let ingate := chunkCol 3 0 g
  let cellgate := chunkCol 3 1 g
  let outgate := chunkCol 3 2 g
  let cy := matAdd (vecMulMat (c.forgetgate.map σ) cx) (matSub cellgate ingate)
  let hy := matSub (matMap τ cy) outgate
  (hy, (hy, cy))

/-- `LayerNormFixSubLSTMCell` (the spec's NormalizedFixedForgetCell). -/
structure LayerNormFixSubLSTMCell (α : Type) where
  input_size : Nat
  hidden_size : Nat
  weight_ih : List (List α)
  weight_hh : List (List α)
  forgetgate : List α
  layernorm_i : List α → List α
  layernorm_h : List α → List α
  layernorm_c : List α → List α

/-- `LayerNormFixSubLSTMCell.forward` (cell.py lines 109-123). -/
def LayerNormFixSubLSTMCell.forward (σ τ : α → α) (c : LayerNormFixSubLSTMCell α)
    (input : List (List α)) (state : List (List α) × List (List α)) :
    List (List α) × (List (List α) × List (List α)) :=
  let hx := state.1
  let cx := state.2
  let g := matMap σ (matAdd ((mmT input c.weight_ih).map c.layernorm_i)
    ((mmT hx c.weight_hh).map c.layernorm_h))
  let ingate := chunkCol 3 0 g
  let cellgate := chunkCol 3 1 g
  let outgate := chunkCol 3 2 g
  let cy := (matAdd (vecMulMat (c.forgetgate.map σ) cx)
    (matSub cellgate ingate)).map c.layernorm_c
  let hy := matSub (matMap τ cy) outgate
  (hy, (hy, cy))

/-- `PremulSubLSTMCell` (the spec's PrefusedCell): the caller supplies the
input-side projection already computed. -/
structure PremulSubLSTMCell (α : Type) where
  input_size : Nat
  hidden_size : Nat
  weight_hh : List (List α)
  bias_hh : List α

/-- `(premul_input + mm(hx, w_hh.t()) + bias_hh).sigmoid()`. -/
def PremulSubLSTMCell.gates (σ : α → α) (c : PremulSubLSTMCell α)
    (premul_input hx : List (List α)) : List (List α) :=
  matMap σ (addBias (matAdd premul_input (mmT hx c.weight_hh)) c.bias_hh)

/-- `PremulSubLSTMCell.forward` (cell.py lines 135-147). -/
def PremulSubLSTMCell.forward (σ τ : α → α) (c : PremulSubLSTMCell α)
    (premul_input : List (List α)) (state : List (List α) × List (List α)) :
    List (List α) × (List (List α) × List (List α)) :=
  let hx := state.1
  let cx := state.2
  let g := PremulSubLSTMCell.gates σ c premul_input hx
  let ingate := chunkCol 4 0 g
  let forgetgate := chunkCol 4 1 g
  let cellgate := chunkCol 4 2 g
  let outgate := chunkCol 4 3 g
  let cy := matAdd (matHad forgetgate cx) (matSub cellgate ingate)
  let hy := matSub (matMap τ cy) outgate
  (hy, (hy, cy))

/-! ### List access lemmas -/

theorem getD_map {A B : Type} (f : A → B) (l : List A) (n : Nat) (h : n < l.length)
    (d : B) (e : A) : (l.map f).getD n d = f (l.getD n e) := by
  induction l generalizing n with
  | nil => simp at h
  | cons a as ih =>
    cases n with
    | zero => rfl
    | succ m => simpa using ih m (by simpa using h)

theorem getD_zipWith {A B C : Type} (f : A → B → C) (l₁ : List A) (l₂ : List B)
    (n : Nat) (h₁ : n < l₁.length) (h₂ : n < l₂.length) (d : C) (d₁ : A) (d₂ : B) :
    (List.zipWith f l₁ l₂).getD n d = f (l₁.getD n d₁) (l₂.getD n d₂) := by
  induction l₁ generalizing l₂ n with
  | nil => simp at h₁
  | cons a as ih =>
    cases l₂ with
    | nil => simp at h₂
    | cons b bs =>
      cases n with
      | zero => rfl
      | succ m =>
        simpa using ih bs m (by simpa using h₁) (by simpa using h₂)

theorem getD_drop {A : Type} (l : List A) (m n : Nat) (d : A) :
    (l.drop m).getD n d = l.getD (m + n) d := by
  induction l generalizing m with
  | nil => simp
  | cons a as ih =>
    cases m with
    | zero => simp
    | succ k =>
      have : k + 1 + n = (k + n) + 1 := by omega
      simpa [this] using ih k

theorem getD_take {A : Type} (l : List A) (m n : Nat) (h : n < m) (d : A) :
    (l.take m).getD n d = l.getD n d := by
  induction l generalizing m n with
  | nil => simp
  | cons a as ih =>
    cases m with
    | zero => omega
    | succ k =>
      cases n with
      | zero => rfl
      | succ p => simpa using ih k p (by omega)

theorem mem_of_getD {A : Type} (l : List A) (n : Nat) (h : n < l.length) (d : A) :
    l.getD n d ∈ l := by
  induction l generalizing n with
  | nil => simp at h
  | cons a as ih =>
    cases n with
    | zero => simp
    | succ m =>
      exact List.mem_cons_of_mem a (ih m (by simpa using h))

/-! ### Shape lemmas for the matrix operations -/

@[simp] theorem length_mmT (x w : List (List α)) : (mmT x w).length = x.length := by
  simp [mmT]

@[simp] theorem length_addBias (m : List (List α)) (v : List α) :
    (addBias m v).length = m.length := by simp [addBias]

@[simp] theorem length_matAdd (m n : List (List α)) :
    (matAdd m n).length = min m.length n.length := by simp [matAdd]

@[simp] theorem length_matSub (m n : List (List α)) :
    (matSub m n).length = min m.length n.length := by simp [matSub]

@[simp] theorem length_matHad (m n : List (List α)) :
    (matHad m n).length = min m.length n.length := by simp [matHad]

@[simp] theorem length_matMap (f : α → α) (m : List (List α)) :
    (matMap f m).length = m.length := by simp [matMap]

@[simp] theorem length_vecMulMat (v : List α) (m : List (List α)) :
    (vecMulMat v m).length = m.length := by simp [vecMulMat]

@[simp] theorem length_chunkCol (n k : Nat) (m : List (List α)) :
    (chunkCol n k m).length = m.length := by simp [chunkCol]

/-! ### Row extraction lemmas -/

theorem mmT_row (x w : List (List α)) (b : Nat) (h : b < x.length) :
    (mmT x w).getD b [] = w.map fun wr => dot (x.getD b []) wr :=
  getD_map _ _ _ h _ []

theorem addBias_row (m : List (List α)) (v : List α) (b : Nat) (h : b < m.length) :
    (addBias m v).getD b [] = List.zipWith (· + ·) (m.getD b []) v :=
  getD_map _ _ _ h _ []

theorem matAdd_row (m n : List (List α)) (b : Nat) (h₁ : b < m.length)
    (h₂ : b < n.length) :
    (matAdd m n).getD b [] = List.zipWith (· + ·) (m.getD b []) (n.getD b []) :=
  getD_zipWith _ _ _ _ h₁ h₂ _ [] []

theorem matSub_row (m n : List (List α)) (b : Nat) (h₁ : b < m.length)
    (h₂ : b < n.length) :
    (matSub m n).getD b [] = List.zipWith (· - ·) (m.getD b []) (n.getD b []) :=
  getD_zipWith _ _ _ _ h₁ h₂ _ [] []

theorem matHad_row (m n : List (List α)) (b : Nat) (h₁ : b < m.length)
    (h₂ : b < n.length) :
    (matHad m n).getD b [] = List.zipWith (· * ·) (m.getD b []) (n.getD b []) :=
  getD_zipWith _ _ _ _ h₁ h₂ _ [] []

theorem matMap_row (f : α → α) (m : List (List α)) (b : Nat) (h : b < m.length) :
    (matMap f m).getD b [] = (m.getD b []).map f :=
  getD_map _ _ _ h _ []

theorem vecMulMat_row (v : List α) (m : List (List α)) (b : Nat) (h : b < m.length) :
    (vecMulMat v m).getD b [] = List.zipWith (· * ·) v (m.getD b []) :=
  getD_map _ _ _ h _ []

theorem chunkCol_row (n k : Nat) (m : List (List α)) (b : Nat) (h : b < m.length) :
    (chunkCol n k m).getD b [] = rowChunk n k (m.getD b []) :=
  getD_map _ _ _ h _ []

/-! ### Chunk arithmetic -/

theorem chunkSize_four (H : Nat) : chunkSize 4 (4 * H) = H := by
  simp [chunkSize]; omega

theorem chunkSize_three (H : Nat) : chunkSize 3 (3 * H) = H := by
  simp [chunkSize]; omega

theorem rowChunk_entry_four (g : List α) (H k j : Nat) (hg : g.length = 4 * H)
    (hj : j < H) : (rowChunk 4 k g).getD j 0 = g.getD (k * H + j) 0 := by
  unfold rowChunk
  rw [hg, chunkSize_four, getD_take _ _ _ hj, getD_drop]

theorem rowChunk_entry_three (g : List α) (H k j : Nat) (hg : g.length = 3 * H)
    (hj : j < H) : (rowChunk 3 k g).getD j 0 = g.getD (k * H + j) 0 := by
  unfold rowChunk
  rw [hg, chunkSize_three, getD_take _ _ _ hj, getD_drop]

theorem rowChunk_length_four (g : List α) (H k : Nat) (hg : g.length = 4 * H)
    (hk : k < 4) : (rowChunk 4 k g).length = H := by
  unfold rowChunk
  rw [hg, chunkSize_four]
  simp
  interval_cases k <;> omega

theorem rowChunk_length_three (g : List α) (H k : Nat) (hg : g.length = 3 * H)
    (hk : k < 3) : (rowChunk 3 k g).length = H := by
  unfold rowChunk
  rw [hg, chunkSize_three]
  simp
  interval_cases k <;> omega

/-! ### Spec-side index formulas -/

/-- Spec formula for the dot product of two rows of length `n`, as an index sum. -/
def specDot (r w : List α) (n : Nat) : α :=
  ∑ t ∈ Finset.range n, r.getD t 0 * w.getD t 0

theorem dot_eq_specDot (r w : List α) (h : w.length = r.length) :
    dot r w = specDot r w r.length := by
  induction r generalizing w with
  | nil => cases w <;> simp [dot, specDot]
  | cons a as ih =>
    cases w with
    | nil => simp at h
    | cons b bs =>
      have hw : bs.length = as.length := by simpa using h
      show a * b + dot as bs = specDot (a :: as) (b :: bs) (as.length + 1)
      rw [ih bs hw]
      unfold specDot
      rw [Finset.sum_range_succ']
      simp [add_comm]

/-- Shape contract of `SubLSTMCell` for input size `I`, hidden size `H`. -/
def SubLSTMCell.hasShape (c : SubLSTMCell α) (I H : Nat) : Prop :=
  matShape c.weight_ih (4 * H) I ∧ matShape c.weight_hh (4 * H) H ∧
    c.bias_ih.length = 4 * H ∧ c.bias_hh.length = 4 * H

/-- Shape contract of `fixSubLSTMCell`. -/
def fixSubLSTMCell.hasShape (c : fixSubLSTMCell α) (I H : Nat) : Prop :=
  matShape c.weight_ih (3 * H) I ∧ matShape c.weight_hh (3 * H) H ∧
    c.bias_ih.length = 3 * H ∧ c.bias_hh.length = 3 * H ∧ c.forgetgate.length = H

/-- Shape contract of `PremulSubLSTMCell`. -/
def PremulSubLSTMCell.hasShape (c : PremulSubLSTMCell α) (H : Nat) : Prop :=
  matShape c.weight_hh (4 * H) H ∧ c.bias_hh.length = 4 * H

/-- Shape contract of `LayerNormSubLSTMCell`; the opaque layernorms are
length-preserving, as the normalization primitive of the host engine is. -/
def LayerNormSubLSTMCell.hasShape (c : LayerNormSubLSTMCell α) (I H : Nat) : Prop :=
  matShape c.weight_ih (4 * H) I ∧ matShape c.weight_hh (4 * H) H ∧
    (∀ r : List α, (c.layernorm_i r).length = r.length) ∧
    (∀ r : List α, (c.layernorm_h r).length = r.length) ∧
    (∀ r : List α, (c.layernorm_c r).length = r.length)

/-- Spec formula for one entry of the fused pre-activation
`z = input·Wih^T + bias_ih + h_prev·Whh^T + bias_hh` of the four-gate cell:
row `b` of the input and previous hidden state, feature column `k`. -/
def specZ4 (c : SubLSTMCell α) (r h : List α) (I H k : Nat) : α :=
  specDot r (c.weight_ih.getD k []) I + c.bias_ih.getD k 0 +
    specDot h (c.weight_hh.getD k []) H + c.bias_hh.getD k 0

/-- Spec formula for one entry of the fused pre-activation of the
three-gate fixed-forget cell. -/
def specZ3 (c : fixSubLSTMCell α) (r h : List α) (I H k : Nat) : α :=
  specDot r (c.weight_ih.getD k []) I + c.bias_ih.getD k 0 +
    specDot h (c.weight_hh.getD k []) H + c.bias_hh.getD k 0

/-- Spec formula for one entry of the pre-activation of the prefused cell:
`premul_input + h_prev·Whh^T + bias_hh`. -/
def specZP (c : PremulSubLSTMCell α) (p h : List α) (H k : Nat) : α :=
  p.getD k 0 + specDot h (c.weight_hh.getD k []) H + c.bias_hh.getD k 0

/-! ### Row-level form of the fused gate computation -/

/-- Row `b` of the fused sigmoided gate tensor shared by `SubLSTMCell` and
`fixSubLSTMCell` (and, after prefusion, `PremulSubLSTMCell`). -/
def affRowGates (σ : α → α) (wih whh : List (List α)) (bih bhh : List α)
    (r h : List α) : List α :=
  List.map σ (List.zipWith (· + ·) (List.zipWith (· + ·)
    (List.zipWith (· + ·) (wih.map fun wr => dot r wr) bih)
    (whh.map fun wr => dot h wr)) bhh)

theorem affRowGates_length (σ : α → α) (wih whh : List (List α)) (bih bhh : List α)
    (r h : List α) (G : Nat) (hwih : wih.length = G) (hwhh : whh.length = G)
    (hbih : bih.length = G) (hbhh : bhh.length = G) :
    (affRowGates σ wih whh bih bhh r h).length = G := by
  simp [affRowGates, List.length_zipWith, hwih, hwhh, hbih, hbhh]

theorem affRowGates_entry (σ : α → α) (wih whh : List (List α)) (bih bhh : List α)
    (r h : List α) (G I H k : Nat)
    (hwih : matShape wih G I) (hwhh : matShape whh G H)
    (hbih : bih.length = G) (hbhh : bhh.length = G)
    (hr : r.length = I) (hh : h.length = H) (hk : k < G) :
    (affRowGates σ wih whh bih bhh r h).getD k 0 =
      σ (specDot r (wih.getD k []) I + bih.getD k 0 +
        specDot h (whh.getD k []) H + bhh.getD k 0) := by
  obtain ⟨hw1, hw2⟩ := hwih
  obtain ⟨hv1, hv2⟩ := hwhh
  have hwk : (wih.getD k []).length = I := hw2 _ (mem_of_getD _ _ (by omega) _)
  have hvk : (whh.getD k []).length = H := hv2 _ (mem_of_getD _ _ (by omega) _)
  unfold affRowGates
  rw [getD_map _ _ _ (by simp [List.length_zipWith, hw1, hv1, hbih, hbhh]; omega) _ 0,
    getD_zipWith _ _ _ _ (by simp [List.length_zipWith, hw1, hv1, hbih]; omega)
      (by omega) _ 0 0,
    getD_zipWith _ _ _ _ (by simp [List.length_zipWith, hw1, hbih]; omega)
      (by simp [hv1]; omega) _ 0 0,
    getD_zipWith _ _ _ _ (by simp [hw1]; omega) (by omega) _ 0 0,
    getD_map _ _ _ (by omega) _ [], getD_map _ _ _ (by omega) _ []]
  rw [dot_eq_specDot r _ (by rw [hwk, hr]), dot_eq_specDot h _ (by rw [hvk, hh]),
    hr, hh]

/-! ### Row-level form of the BasicCell update -/

/-- Row `b` of the new cell state of `SubLSTMCell.forward`. -/
def basicRowCy (σ : α → α) (c : SubLSTMCell α) (r h cr : List α) : List α :=
  let g := affRowGates σ c.weight_ih c.weight_hh c.bias_ih c.bias_hh r h
  List.zipWith (· + ·) (List.zipWith (· * ·) (rowChunk 4 1 g) cr)
    (List.zipWith (· - ·) (rowChunk 4 2 g) (rowChunk 4 0 g))

/-- Row `b` of the new hidden state of `SubLSTMCell.forward`. -/
def basicRowHy (σ τ : α → α) (c : SubLSTMCell α) (r h cr : List α) : List α :=
  List.zipWith (· - ·) ((basicRowCy σ c r h cr).map τ)
    (rowChunk 4 3 (affRowGates σ c.weight_ih c.weight_hh c.bias_ih c.bias_hh r h))

theorem basic_gates_row (σ : α → α) (c : SubLSTMCell α)
    (input hx : List (List α)) (b : Nat) (h₁ : b < input.length) (h₂ : b < hx.length) :
    (SubLSTMCell.gates σ c input hx).getD b [] =
      affRowGates σ c.weight_ih c.weight_hh c.bias_ih c.bias_hh
        (input.getD b []) (hx.getD b []) := by
  unfold SubLSTMCell.gates affRowGates
  rw [matMap_row _ _ _ (by simp; omega),
    addBias_row _ _ _ (by simp; omega),
    matAdd_row _ _ _ (by simp; omega) (by simp; omega),
    addBias_row _ _ _ (by simp; omega),
    mmT_row _ _ _ h₁, mmT_row _ _ _ h₂]

theorem basic_forward_cy_row (σ τ : α → α) (c : SubLSTMCell α)
    (input hx cx : List (List α)) (b : Nat)
    (h₁ : b < input.length) (h₂ : b < hx.length) (h₃ : b < cx.length) :
    (SubLSTMCell.forward σ τ c input (hx, cx)).2.2.getD b [] =
      basicRowCy σ c (input.getD b []) (hx.getD b []) (cx.getD b []) := by
  show (matAdd (matHad (chunkCol 4 1 (SubLSTMCell.gates σ c input hx)) cx)
      (matSub (chunkCol 4 2 (SubLSTMCell.gates σ c input hx))
        (chunkCol 4 0 (SubLSTMCell.gates σ c input hx)))).getD b [] = _
  rw [matAdd_row _ _ _ (by simp [SubLSTMCell.gates]; omega)
      (by simp [SubLSTMCell.gates]; omega),
    matHad_row _ _ _ (by simp [SubLSTMCell.gates]; omega) (by omega),
    matSub_row _ _ _ (by simp [SubLSTMCell.gates]; omega)
      (by simp [SubLSTMCell.gates]; omega),
    chunkCol_row _ _ _ _ (by simp [SubLSTMCell.gates]; omega),
    chunkCol_row _ _ _ _ (by simp [SubLSTMCell.gates]; omega),
    chunkCol_row _ _ _ _ (by simp [SubLSTMCell.gates]; omega),
    basic_gates_row _ _ _ _ _ h₁ h₂]
  rfl

theorem basic_forward_hy_row (σ τ : α → α) (c : SubLSTMCell α)
    (input hx cx : List (List α)) (b : Nat)
    (h₁ : b < input.length) (h₂ : b < hx.length) (h₃ : b < cx.length) :
    (SubLSTMCell.forward σ τ c input (hx, cx)).1.getD b [] =
      basicRowHy σ τ c (input.getD b []) (hx.getD b []) (cx.getD b []) := by
  show (matSub (matMap τ (SubLSTMCell.forward σ τ c input (hx, cx)).2.2)
      (chunkCol 4 3 (SubLSTMCell.gates σ c input hx))).getD b [] = _
  rw [matSub_row _ _ _ (by simp [SubLSTMCell.forward, SubLSTMCell.gates]; omega)
      (by simp [SubLSTMCell.gates]; omega),
    matMap_row _ _ _ (by simp [SubLSTMCell.forward, SubLSTMCell.gates]; omega),
    chunkCol_row _ _ _ _ (by simp [SubLSTMCell.gates]; omega),
    basic_forward_cy_row _ _ _ _ _ _ _ h₁ h₂ h₃,
    basic_gates_row _ _ _ _ _ h₁ h₂]
  rfl

theorem basicRowCy_entry (σ : α → α) (c : SubLSTMCell α) (r h cr : List α)
    (I H j : Nat) (hc : c.hasShape I H) (hr : r.length = I) (hh : h.length = H)
    (hcr : cr.length = H) (hj : j < H) :
    (basicRowCy σ c r h cr).getD j 0 =
      σ (specZ4 c r h I H (H + j)) * cr.getD j 0 +
        (σ (specZ4 c r h I H (2 * H + j)) - σ (specZ4 c r h I H j)) := by
  obtain ⟨hwih, hwhh, hbih, hbhh⟩ := hc
  have hg : (affRowGates σ c.weight_ih c.weight_hh c.bias_ih c.bias_hh r h).length
      = 4 * H := affRowGates_length _ _ _ _ _ _ _ _ hwih.1 hwhh.1 hbih hbhh
  have hk0 := rowChunk_length_four _ H 0 hg (by norm_num)
  have hk1 := rowChunk_length_four _ H 1 hg (by norm_num)
  have hk2 := rowChunk_length_four _ H 2 hg (by norm_num)
  unfold basicRowCy
  rw [getD_zipWith _ _ _ _ (by simp [List.length_zipWith, hk1, hcr]; omega)
      (by simp [List.length_zipWith, hk2, hk0]; omega) _ 0 0,
    getD_zipWith _ _ _ _ (by omega) (by omega) _ 0 0,
    getD_zipWith _ _ _ _ (by omega) (by omega) _ 0 0,
    rowChunk_entry_four _ H _ _ hg hj, rowChunk_entry_four _ H _ _ hg hj,
    rowChunk_entry_four _ H _ _ hg hj,
    affRowGates_entry _ _ _ _ _ _ _ _ I H _ hwih hwhh hbih hbhh hr hh (by omega),
    affRowGates_entry _ _ _ _ _ _ _ _ I H _ hwih hwhh hbih hbhh hr hh (by omega),
    affRowGates_entry _ _ _ _ _ _ _ _ I H _ hwih hwhh hbih hbhh hr hh (by omega)]
  simp only [one_mul, zero_mul, zero_add]
  rfl

theorem basicRowHy_entry (σ τ : α → α) (c : SubLSTMCell α) (r h cr : List α)
    (I H j : Nat) (hc : c.hasShape I H) (hr : r.length = I) (hh : h.length = H)
    (hcr : cr.length = H) (hj : j < H) :
    (basicRowHy σ τ c r h cr).getD j 0 =
      τ ((basicRowCy σ c r h cr).getD j 0) - σ (specZ4 c r h I H (3 * H + j)) := by
  obtain ⟨hwih, hwhh, hbih, hbhh⟩ := hc
  have hg : (affRowGates σ c.weight_ih c.weight_hh c.bias_ih c.bias_hh r h).length
      = 4 * H := affRowGates_length _ _ _ _ _ _ _ _ hwih.1 hwhh.1 hbih hbhh
  have hk0 := rowChunk_length_four _ H 0 hg (by norm_num)
  have hk1 := rowChunk_length_four _ H 1 hg (by norm_num)
  have hk2 := rowChunk_length_four _ H 2 hg (by norm_num)
  have hk3 := rowChunk_length_four _ H 3 hg (by norm_num)
  have hcy : (basicRowCy σ c r h cr).length = H := by
    simp [basicRowCy, List.length_zipWith, hk0, hk1, hk2, hcr]
  unfold basicRowHy
  rw [getD_zipWith _ _ _ _ (by simp [hcy]; omega) (by omega) _ 0 0,
    getD_map _ _ _ (by omega) _ 0,
    rowChunk_entry_four _ H _ _ hg hj,
    affRowGates_entry _ _ _ _ _ _ _ _ I H _ hwih hwhh hbih hbhh hr hh (by omega)]
  rfl

/-- C1: for every input of shape [B,I] and state pair of shape [B,H],
`SubLSTMCell.forward` (the spec's BasicCell.update) computes the fused
sigmoided gates `sigmoid(input·Wih^T + bias_ih + h_prev·Whh^T + bias_hh)`,
splits them into four equal slices (i, f, g, o) in that order along the
feature axis, and the entry (b, j) of the returned states satisfies
`c_new = f ⊙ c_prev + (g − i)` and `h_new = tanh(c_new) − o`. -/
theorem claim_C1_basic_update_formula (σ τ : α → α) (c : SubLSTMCell α)
    (input hx cx : List (List α)) (B I H b j : Nat)
    (hc : c.hasShape I H) (hin : matShape input B I)
    (hhx : matShape hx B H) (hcx : matShape cx B H)
    (hb : b < B) (hj : j < H) :
    (((SubLSTMCell.forward σ τ c input (hx, cx)).2.2.getD b []).getD j 0 =
      σ (specZ4 c (input.getD b []) (hx.getD b []) I H (H + j)) *
          ((cx.getD b []).getD j 0) +
        (σ (specZ4 c (input.getD b []) (hx.getD b []) I H (2 * H + j)) -
          σ (specZ4 c (input.getD b []) (hx.getD b []) I H j))) ∧
    ((SubLSTMCell.forward σ τ c input (hx, cx)).1.getD b []).getD j 0 =
      τ (((SubLSTMCell.forward σ τ c input (hx, cx)).2.2.getD b []).getD j 0) -
        σ (specZ4 c (input.getD b []) (hx.getD b []) I H (3 * H + j)) := by
  obtain ⟨hi1, hi2⟩ := hin
  obtain ⟨hh1, hh2⟩ := hhx
  obtain ⟨hc1, hc2⟩ := hcx
  have hrin : (input.getD b []).length = I := hi2 _ (mem_of_getD _ _ (by omega) _)
  have hrhx : (hx.getD b []).length = H := hh2 _ (mem_of_getD _ _ (by omega) _)
  have hrcx : (cx.getD b []).length = H := hc2 _ (mem_of_getD _ _ (by omega) _)
  constructor
  · rw [basic_forward_cy_row _ _ _ _ _ _ _ (by omega) (by omega) (by omega)]
    exact basicRowCy_entry σ c _ _ _ I H j hc hrin hrhx hrcx hj
  · rw [basic_forward_hy_row _ _ _ _ _ _ _ (by omega) (by omega) (by omega),
      basic_forward_cy_row _ _ _ _ _ _ _ (by omega) (by omega) (by omega)]
    exact basicRowHy_entry σ τ c _ _ _ I H j hc hrin hrhx hrcx hj

/-! ### Row-level form of the FixedForgetCell update -/

/-- Row `b` of the new cell state of `fixSubLSTMCell.forward`. -/
def fixRowCy (σ : α → α) (c : fixSubLSTMCell α) (r h cr : List α) : List α :=
  let g := affRowGates σ c.weight_ih c.weight_hh c.bias_ih c.bias_hh r h
  List.zipWith (· + ·) (List.zipWith (· * ·) (c.forgetgate.map σ) cr)
    (List.zipWith (· - ·) (rowChunk 3 1 g) (rowChunk 3 0 g))

/-- Row `b` of the new hidden state of `fixSubLSTMCell.forward`. -/
def fixRowHy (σ τ : α → α) (c : fixSubLSTMCell α) (r h cr : List α) : List α :=
  List.zipWith (· - ·) ((fixRowCy σ c r h cr).map τ)
    (rowChunk 3 2 (affRowGates σ c.weight_ih c.weight_hh c.bias_ih c.bias_hh r h))

theorem fix_gates_row (σ : α → α) (c : fixSubLSTMCell α)
    (input hx : List (List α)) (b : Nat) (h₁ : b < input.length) (h₂ : b < hx.length) :
    (fixSubLSTMCell.gates σ c input hx).getD b [] =
      affRowGates σ c.weight_ih c.weight_hh c.bias_ih c.bias_hh
        (input.getD b []) (hx.getD b []) := by
  unfold fixSubLSTMCell.gates affRowGates
  rw [matMap_row _ _ _ (by simp; omega),
    addBias_row _ _ _ (by simp; omega),
    matAdd_row _ _ _ (by simp; omega) (by simp; omega),
    addBias_row _ _ _ (by simp; omega),
    mmT_row _ _ _ h₁, mmT_row _ _ _ h₂]

theorem fix_forward_cy_row (σ τ : α → α) (c : fixSubLSTMCell α)
    (input hx cx : List (List α)) (b : Nat)
    (h₁ : b < input.length) (h₂ : b < hx.length) (h₃ : b < cx.length) :
    (fixSubLSTMCell.forward σ τ c input (hx, cx)).2.2.getD b [] =
      fixRowCy σ c (input.getD b []) (hx.getD b []) (cx.getD b []) := by
  show (matAdd (vecMulMat (c.forgetgate.map σ) cx)
      (matSub (chunkCol 3 1 (fixSubLSTMCell.gates σ c input hx))
        (chunkCol 3 0 (fixSubLSTMCell.gates σ c input hx)))).getD b [] = _
  rw [matAdd_row _ _ _ (by simp; omega)
      (by simp [fixSubLSTMCell.gates]; omega),
    vecMulMat_row _ _ _ (by omega),
    matSub_row _ _ _ (by simp [fixSubLSTMCell.gates]; omega)
      (by simp [fixSubLSTMCell.gates]; omega),
    chunkCol_row _ _ _ _ (by simp [fixSubLSTMCell.gates]; omega),
    chunkCol_row _ _ _ _ (by simp [fixSubLSTMCell.gates]; omega),
    fix_gates_row _ _ _ _ _ h₁ h₂]
  rfl

theorem fix_forward_hy_row (σ τ : α → α) (c : fixSubLSTMCell α)
    (input hx cx : List (List α)) (b : Nat)
    (h₁ : b < input.length) (h₂ : b < hx.length) (h₃ : b < cx.length) :
    (fixSubLSTMCell.forward σ τ c input (hx, cx)).1.getD b [] =
      fixRowHy σ τ c (input.getD b []) (hx.getD b []) (cx.getD b []) := by
  show (matSub (matMap τ (fixSubLSTMCell.forward σ τ c input (hx, cx)).2.2)
      (chunkCol 3 2 (fixSubLSTMCell.gates σ c input hx))).getD b [] = _
  rw [matSub_row _ _ _ (by simp [fixSubLSTMCell.forward, fixSubLSTMCell.gates]; omega)
      (by simp [fixSubLSTMCell.gates]; omega),
    matMap_row _ _ _ (by simp [fixSubLSTMCell.forward, fixSubLSTMCell.gates]; omega),
    chunkCol_row _ _ _ _ (by simp [fixSubLSTMCell.gates]; omega),
    fix_forward_cy_row _ _ _ _ _ _ _ h₁ h₂ h₃,
    fix_gates_row _ _ _ _ _ h₁ h₂]
  rfl

theorem fixRowCy_entry (σ : α → α) (c : fixSubLSTMCell α) (r h cr : List α)
    (I H j : Nat) (hc : c.hasShape I H) (hr : r.length = I) (hh : h.length = H)
    (hcr : cr.length = H) (hj : j < H) :
    (fixRowCy σ c r h cr).getD j 0 =
      σ (c.forgetgate.getD j 0) * cr.getD j 0 +
        (σ (specZ3 c r h I H (H + j)) - σ (specZ3 c r h I H j)) := by
  obtain ⟨hwih, hwhh, hbih, hbhh, hfg⟩ := hc
  have hg : (affRowGates σ c.weight_ih c.weight_hh c.bias_ih c.bias_hh r h).length
      = 3 * H := affRowGates_length _ _ _ _ _ _ _ _ hwih.1 hwhh.1 hbih hbhh
  have hk0 := rowChunk_length_three _ H 0 hg (by norm_num)
  have hk1 := rowChunk_length_three _ H 1 hg (by norm_num)
  unfold fixRowCy
  rw [getD_zipWith _ _ _ _ (by simp [List.length_zipWith, hfg, hcr]; omega)
      (by simp [List.length_zipWith, hk1, hk0]; omega) _ 0 0,
    getD_zipWith _ _ _ _ (by simp [hfg]; omega) (by omega) _ 0 0,
    getD_zipWith _ _ _ _ (by omega) (by omega) _ 0 0,
    getD_map _ _ _ (by omega) _ 0,
    rowChunk_entry_three _ H _ _ hg hj, rowChunk_entry_three _ H _ _ hg hj,
    affRowGates_entry _ _ _ _ _ _ _ _ I H _ hwih hwhh hbih hbhh hr hh (by omega),
    affRowGates_entry _ _ _ _ _ _ _ _ I H _ hwih hwhh hbih hbhh hr hh (by omega)]
  simp only [one_mul, zero_mul, zero_add]
  rfl

theorem fixRowHy_entry (σ τ : α → α) (c : fixSubLSTMCell α) (r h cr : List α)
    (I H j : Nat) (hc : c.hasShape I H) (hr : r.length = I) (hh : h.length = H)
    (hcr : cr.length = H) (hj : j < H) :
    (fixRowHy σ τ c r h cr).getD j 0 =
      τ ((fixRowCy σ c r h cr).getD j 0) - σ (specZ3 c r h I H (2 * H + j)) := by
  obtain ⟨hwih, hwhh, hbih, hbhh, hfg⟩ := hc
  have hg : (affRowGates σ c.weight_ih c.weight_hh c.bias_ih c.bias_hh r h).length
      = 3 * H := affRowGates_length _ _ _ _ _ _ _ _ hwih.1 hwhh.1 hbih hbhh
  have hk0 := rowChunk_length_three _ H 0 hg (by norm_num)
  have hk1 := rowChunk_length_three _ H 1 hg (by norm_num)
  have hk2 := rowChunk_length_three _ H 2 hg (by norm_num)
  have hcy : (fixRowCy σ c r h cr).length = H := by
    simp [fixRowCy, List.length_zipWith, hk0, hk1, hfg, hcr]
  unfold fixRowHy
  rw [getD_zipWith _ _ _ _ (by simp [hcy]; omega) (by omega) _ 0 0,
    getD_map _ _ _ (by omega) _ 0,
    rowChunk_entry_three _ H _ _ hg hj,
    affRowGates_entry _ _ _ _ _ _ _ _ I H _ hwih hwhh hbih hbhh hr hh (by omega)]
  rfl

/-- C5: for every input of shape [B,I] and state pair of shape [B,H],
`fixSubLSTMCell.forward` (the spec's FixedForgetCell.update) computes a
3-slice gate tensor `sigmoid(input·Wih^T + bias_ih + h_prev·Whh^T + bias_hh)`
split in order (i, g, o), and the entry (b, j) of the returned states
satisfies `c_new = sigmoid(fg) ⊙ c_prev + (g − i)` and
`h_new = tanh(c_new) − o`, where `fg` is the stored forget vector of shape
[H] (independent of the batch row `b`, with sigmoid applied at use-time). -/
theorem claim_C5_fix_update_formula (σ τ : α → α) (c : fixSubLSTMCell α)
    (input hx cx : List (List α)) (B I H b j : Nat)
    (hc : c.hasShape I H) (hin : matShape input B I)
    (hhx : matShape hx B H) (hcx : matShape cx B H)
    (hb : b < B) (hj : j < H) :
    (((fixSubLSTMCell.forward σ τ c input (hx, cx)).2.2.getD b []).getD j 0 =
      σ (c.forgetgate.getD j 0) * ((cx.getD b []).getD j 0) +
        (σ (specZ3 c (input.getD b []) (hx.getD b []) I H (H + j)) -
          σ (specZ3 c (input.getD b []) (hx.getD b []) I H j))) ∧
    ((fixSubLSTMCell.forward σ τ c input (hx, cx)).1.getD b []).getD j 0 =
      τ (((fixSubLSTMCell.forward σ τ c input (hx, cx)).2.2.getD b []).getD j 0) -
        σ (specZ3 c (input.getD b []) (hx.getD b []) I H (2 * H + j)) := by
  obtain ⟨hi1, hi2⟩ := hin
  obtain ⟨hh1, hh2⟩ := hhx
  obtain ⟨hc1, hc2⟩ := hcx
  have hrin : (input.getD b []).length = I := hi2 _ (mem_of_getD _ _ (by omega) _)
  have hrhx : (hx.getD b []).length = H := hh2 _ (mem_of_getD _ _ (by omega) _)
  have hrcx : (cx.getD b []).length = H := hc2 _ (mem_of_getD _ _ (by omega) _)
  constructor
  · rw [fix_forward_cy_row _ _ _ _ _ _ _ (by omega) (by omega) (by omega)]
    exact fixRowCy_entry σ c _ _ _ I H j hc hrin hrhx hrcx hj
  · rw [fix_forward_hy_row _ _ _ _ _ _ _ (by omega) (by omega) (by omega),
      fix_forward_cy_row _ _ _ _ _ _ _ (by omega) (by omega) (by omega)]
    exact fixRowHy_entry σ τ c _ _ _ I H j hc hrin hrhx hrcx hj

/-! ### Row-level form of the PrefusedCell update -/

/-- Row `b` of the sigmoided gate tensor of `PremulSubLSTMCell.forward`. -/
def premulRowGates (σ : α → α) (c : PremulSubLSTMCell α) (p h : List α) : List α :=
  List.map σ (List.zipWith (· + ·) (List.zipWith (· + ·) p
    (c.weight_hh.map fun wr => dot h wr)) c.bias_hh)

/-- Row `b` of the new cell state of `PremulSubLSTMCell.forward`. -/
def premulRowCy (σ : α → α) (c : PremulSubLSTMCell α) (p h cr : List α) : List α :=
  let g := premulRowGates σ c p h
  List.zipWith (· + ·) (List.zipWith (· * ·) (rowChunk 4 1 g) cr)
    (List.zipWith (· - ·) (rowChunk 4 2 g) (rowChunk 4 0 g))

/-- Row `b` of the new hidden state of `PremulSubLSTMCell.forward`. -/
def premulRowHy (σ τ : α → α) (c : PremulSubLSTMCell α) (p h cr : List α) : List α :=
  List.zipWith (· - ·) ((premulRowCy σ c p h cr).map τ)
    (rowChunk 4 3 (premulRowGates σ c p h))

theorem premulRowGates_length (σ : α → α) (c : PremulSubLSTMCell α) (p h : List α)
    (G H : Nat) (hp : p.length = G) (hwhh : matShape c.weight_hh G H)
    (hbhh : c.bias_hh.length = G) : (premulRowGates σ c p h).length = G := by
  simp [premulRowGates, List.length_zipWith, hp, hwhh.1, hbhh]

theorem premulRowGates_entry (σ : α → α) (c : PremulSubLSTMCell α) (p h : List α)
    (G H k : Nat) (hp : p.length = G) (hwhh : matShape c.weight_hh G H)
    (hbhh : c.bias_hh.length = G) (hh : h.length = H) (hk : k < G) :
    (premulRowGates σ c p h).getD k 0 = σ (specZP c p h H k) := by
  obtain ⟨hv1, hv2⟩ := hwhh
  have hvk : (c.weight_hh.getD k []).length = H := hv2 _ (mem_of_getD _ _ (by omega) _)
  unfold premulRowGates
  rw [getD_map _ _ _ (by simp [List.length_zipWith, hp, hv1, hbhh]; omega) _ 0,
    getD_zipWith _ _ _ _ (by simp [List.length_zipWith, hp, hv1]; omega)
      (by omega) _ 0 0,
    getD_zipWith _ _ _ _ (by omega) (by simp [hv1]; omega) _ 0 0,
    getD_map _ _ _ (by omega) _ []]
  rw [dot_eq_specDot h _ (by rw [hvk, hh]), hh]
  rfl

theorem premul_gates_row (σ : α → α) (c : PremulSubLSTMCell α)
    (premul_input hx : List (List α)) (b : Nat)
    (h₁ : b < premul_input.length) (h₂ : b < hx.length) :
    (PremulSubLSTMCell.gates σ c premul_input hx).getD b [] =
      premulRowGates σ c (premul_input.getD b []) (hx.getD b []) := by
  unfold PremulSubLSTMCell.gates premulRowGates
  rw [matMap_row _ _ _ (by simp; omega),
    addBias_row _ _ _ (by simp; omega),
    matAdd_row _ _ _ (by omega) (by simp; omega),
    mmT_row _ _ _ h₂]

theorem premul_forward_cy_row (σ τ : α → α) (c : PremulSubLSTMCell α)
    (premul_input hx cx : List (List α)) (b : Nat)
    (h₁ : b < premul_input.length) (h₂ : b < hx.length) (h₃ : b < cx.length) :
    (PremulSubLSTMCell.forward σ τ c premul_input (hx, cx)).2.2.getD b [] =
      premulRowCy σ c (premul_input.getD b []) (hx.getD b []) (cx.getD b []) := by
  show (matAdd (matHad (chunkCol 4 1 (PremulSubLSTMCell.gates σ c premul_input hx)) cx)
      (matSub (chunkCol 4 2 (PremulSubLSTMCell.gates σ c premul_input hx))
        (chunkCol 4 0 (PremulSubLSTMCell.gates σ c premul_input hx)))).getD b [] = _
  rw [matAdd_row _ _ _ (by simp [PremulSubLSTMCell.gates]; omega)
      (by simp [PremulSubLSTMCell.gates]; omega),
    matHad_row _ _ _ (by simp [PremulSubLSTMCell.gates]; omega) (by omega),
    matSub_row _ _ _ (by simp [PremulSubLSTMCell.gates]; omega)
      (by simp [PremulSubLSTMCell.gates]; omega),
    chunkCol_row _ _ _ _ (by simp [PremulSubLSTMCell.gates]; omega),
    chunkCol_row _ _ _ _ (by simp [PremulSubLSTMCell.gates]; omega),
    chunkCol_row _ _ _ _ (by simp [PremulSubLSTMCell.gates]; omega),
    premul_gates_row _ _ _ _ _ h₁ h₂]
  rfl

theorem premul_forward_hy_row (σ τ : α → α) (c : PremulSubLSTMCell α)
    (premul_input hx cx : List (List α)) (b : Nat)
    (h₁ : b < premul_input.length) (h₂ : b < hx.length) (h₃ : b < cx.length) :
    (PremulSubLSTMCell.forward σ τ c premul_input (hx, cx)).1.getD b [] =
      premulRowHy σ τ c (premul_input.getD b []) (hx.getD b []) (cx.getD b []) := by
  show (matSub (matMap τ (PremulSubLSTMCell.forward σ τ c premul_input (hx, cx)).2.2)
      (chunkCol 4 3 (PremulSubLSTMCell.gates σ c premul_input hx))).getD b [] = _
  rw [matSub_row _ _ _
      (by simp [PremulSubLSTMCell.forward, PremulSubLSTMCell.gates]; omega)
      (by simp [PremulSubLSTMCell.gates]; omega),
    matMap_row _ _ _
      (by simp [PremulSubLSTMCell.forward, PremulSubLSTMCell.gates]; omega),
    chunkCol_row _ _ _ _ (by simp [PremulSubLSTMCell.gates]; omega),
    premul_forward_cy_row _ _ _ _ _ _ _ h₁ h₂ h₃,
    premul_gates_row _ _ _ _ _ h₁ h₂]
  rfl

theorem premulRowCy_entry (σ : α → α) (c : PremulSubLSTMCell α) (p h cr : List α)
    (H j : Nat) (hc : c.hasShape H) (hp : p.length = 4 * H) (hh : h.length = H)
    (hcr : cr.length = H) (hj : j < H) :
    (premulRowCy σ c p h cr).getD j 0 =
      σ (specZP c p h H (H + j)) * cr.getD j 0 +
        (σ (specZP c p h H (2 * H + j)) - σ (specZP c p h H j)) := by
  obtain ⟨hwhh, hbhh⟩ := hc
  have hg : (premulRowGates σ c p h).length = 4 * H :=
    premulRowGates_length _ _ _ _ _ H hp hwhh hbhh
  have hk0 := rowChunk_length_four _ H 0 hg (by norm_num)
  have hk1 := rowChunk_length_four _ H 1 hg (by norm_num)
  have hk2 := rowChunk_length_four _ H 2 hg (by norm_num)
  unfold premulRowCy
  rw [getD_zipWith _ _ _ _ (by simp [List.length_zipWith, hk1, hcr]; omega)
      (by simp [List.length_zipWith, hk2, hk0]; omega) _ 0 0,
    getD_zipWith _ _ _ _ (by omega) (by omega) _ 0 0,
    getD_zipWith _ _ _ _ (by omega) (by omega) _ 0 0,
    rowChunk_entry_four _ H _ _ hg hj, rowChunk_entry_four _ H _ _ hg hj,
    rowChunk_entry_four _ H _ _ hg hj,
    premulRowGates_entry _ _ _ _ _ H _ hp ⟨hwhh.1, hwhh.2⟩ hbhh hh (by omega),
    premulRowGates_entry _ _ _ _ _ H _ hp ⟨hwhh.1, hwhh.2⟩ hbhh hh (by omega),
    premulRowGates_entry _ _ _ _ _ H _ hp ⟨hwhh.1, hwhh.2⟩ hbhh hh (by omega)]
  simp only [one_mul, zero_mul, zero_add]

theorem premulRowHy_entry (σ τ : α → α) (c : PremulSubLSTMCell α) (p h cr : List α)
    (H j : Nat) (hc : c.hasShape H) (hp : p.length = 4 * H) (hh : h.length = H)
    (hcr : cr.length = H) (hj : j < H) :
    (premulRowHy σ τ c p h cr).getD j 0 =
      τ ((premulRowCy σ c p h cr).getD j 0) - σ (specZP c p h H (3 * H + j)) := by
  obtain ⟨hwhh, hbhh⟩ := hc
  have hg : (premulRowGates σ c p h).length = 4 * H :=
    premulRowGates_length _ _ _ _ _ H hp hwhh hbhh
  have hk0 := rowChunk_length_four _ H 0 hg (by norm_num)
  have hk1 := rowChunk_length_four _ H 1 hg (by norm_num)
  have hk2 := rowChunk_length_four _ H 2 hg (by norm_num)
  have hk3 := rowChunk_length_four _ H 3 hg (by norm_num)
  have hcy : (premulRowCy σ c p h cr).length = H := by
    simp [premulRowCy, List.length_zipWith, hk0, hk1, hk2, hcr]
  unfold premulRowHy
  rw [getD_zipWith _ _ _ _ (by simp [hcy]; omega) (by omega) _ 0 0,
    getD_map _ _ _ (by omega) _ 0,
    rowChunk_entry_four _ H _ _ hg hj,
    premulRowGates_entry _ _ _ _ _ H _ hp ⟨hwhh.1, hwhh.2⟩ hbhh hh (by omega)]

/-- C4: `SubLSTMCell.forward` (BasicCell.update) and
`PremulSubLSTMCell.forward` (PrefusedCell.update) return identical results —
identical `h_new` and `c_new` — whenever `premul_input` is constructed as
`input·Wih^T + bias_ih` with the BasicCell's input-side parameters and both
cells share the same hidden-side weight `Whh` and bias `bias_hh`. -/
theorem claim_C4_prefused_equivalence (σ τ : α → α) (c : SubLSTMCell α)
    (p : PremulSubLSTMCell α) (input hx cx : List (List α))
    (hwhh : p.weight_hh = c.weight_hh) (hbhh : p.bias_hh = c.bias_hh) :
    PremulSubLSTMCell.forward σ τ p (addBias (mmT input c.weight_ih) c.bias_ih)
      (hx, cx) = SubLSTMCell.forward σ τ c input (hx, cx) := by
  cases p
  cases hwhh
  cases hbhh
  rfl

/-! ### Row-level form of the NormalizedCell computation -/

/-- Spec formula for row `b` of a projection `x·W^T`: the list of index sums
against each weight row. -/
def specProjRow (w : List (List α)) (r : List α) (n : Nat) : List α :=
  w.map fun wr => specDot r wr n

theorem projRow_eq_spec (w : List (List α)) (r : List α) (I : Nat)
    (hr : r.length = I) (hw : ∀ wr ∈ w, wr.length = I) :
    (w.map fun wr => dot r wr) = specProjRow w r I := by
  unfold specProjRow
  apply List.map_congr_left
  intro wr hwr
  rw [dot_eq_specDot r wr ((hw wr hwr).trans hr.symm), hr]

/-- Row `b` of the sigmoided gate tensor of `LayerNormSubLSTMCell`. -/
def lnRowGates (σ : α → α) (c : LayerNormSubLSTMCell α) (r h : List α) : List α :=
  List.map σ (List.zipWith (· + ·)
    (c.layernorm_i (c.weight_ih.map fun wr => dot r wr))
    (c.layernorm_h (c.weight_hh.map fun wr => dot h wr)))

/-- Row `b` of the pre-normalization combination `f ⊙ c_prev + (g − i)` of
`LayerNormSubLSTMCell`. -/
def lnCombRow (σ : α → α) (c : LayerNormSubLSTMCell α) (r h cr : List α) : List α :=
  let g := lnRowGates σ c r h
  List.zipWith (· + ·) (List.zipWith (· * ·) (rowChunk 4 1 g) cr)
    (List.zipWith (· - ·) (rowChunk 4 2 g) (rowChunk 4 0 g))

/-- Row `b` of the normalized cell state of `LayerNormSubLSTMCell`. -/
def lnRowCy (σ : α → α) (c : LayerNormSubLSTMCell α) (r h cr : List α) : List α :=
  c.layernorm_c (lnCombRow σ c r h cr)

theorem lnRowGates_length (σ : α → α) (c : LayerNormSubLSTMCell α) (r h : List α)
    (I H : Nat) (hc : c.hasShape I H) : (lnRowGates σ c r h).length = 4 * H := by
  obtain ⟨hwih, hwhh, hlnI, hlnH, hlnC⟩ := hc
  simp [lnRowGates, List.length_zipWith, hlnI, hlnH, hwih.1, hwhh.1]

theorem ln_gates_row (σ : α → α) (c : LayerNormSubLSTMCell α)
    (input hx : List (List α)) (b : Nat) (h₁ : b < input.length) (h₂ : b < hx.length) :
    (LayerNormSubLSTMCell.gates σ c input hx).getD b [] =
      lnRowGates σ c (input.getD b []) (hx.getD b []) := by
  unfold LayerNormSubLSTMCell.gates lnRowGates
  rw [matMap_row _ _ _ (by simp [List.length_zipWith]; omega),
    matAdd_row _ _ _ (by simp; omega) (by simp; omega),
    getD_map _ _ _ (by simp; omega) _ [], getD_map _ _ _ (by simp; omega) _ [],
    mmT_row _ _ _ h₁, mmT_row _ _ _ h₂]

theorem ln_cy_row (σ : α → α) (c : LayerNormSubLSTMCell α)
    (input hx cx : List (List α)) (b : Nat)
    (h₁ : b < input.length) (h₂ : b < hx.length) (h₃ : b < cx.length) :
    (LayerNormSubLSTMCell.cy σ c input hx cx).getD b [] =
      lnRowCy σ c (input.getD b []) (hx.getD b []) (cx.getD b []) := by
  unfold LayerNormSubLSTMCell.cy lnRowCy
  rw [getD_map _ _ _
      (by simp [List.length_zipWith, LayerNormSubLSTMCell.gates]; omega) _ [],
    matAdd_row _ _ _ (by simp [LayerNormSubLSTMCell.gates]; omega)
      (by simp [LayerNormSubLSTMCell.gates]; omega),
    matHad_row _ _ _ (by simp [LayerNormSubLSTMCell.gates]; omega) (by omega),
    matSub_row _ _ _ (by simp [LayerNormSubLSTMCell.gates]; omega)
      (by simp [LayerNormSubLSTMCell.gates]; omega),
    chunkCol_row _ _ _ _ (by simp [LayerNormSubLSTMCell.gates]; omega),
    chunkCol_row _ _ _ _ (by simp [LayerNormSubLSTMCell.gates]; omega),
    chunkCol_row _ _ _ _ (by simp [LayerNormSubLSTMCell.gates]; omega),
    ln_gates_row _ _ _ _ _ h₁ h₂]
  rfl

theorem ln_hy_row (σ τ : α → α) (c : LayerNormSubLSTMCell α)
    (input hx cx : List (List α)) (b : Nat)
    (h₁ : b < input.length) (h₂ : b < hx.length) (h₃ : b < cx.length) :
    (LayerNormSubLSTMCell.hy σ τ c input hx cx).getD b [] =
      List.zipWith (· - ·)
        ((lnRowCy σ c (input.getD b []) (hx.getD b []) (cx.getD b [])).map τ)
        (rowChunk 4 3 (lnRowGates σ c (input.getD b []) (hx.getD b []))) := by
  unfold LayerNormSubLSTMCell.hy
  rw [matSub_row _ _ _
      (by simp [LayerNormSubLSTMCell.cy, LayerNormSubLSTMCell.gates]; omega)
      (by simp [LayerNormSubLSTMCell.gates]; omega),
    matMap_row _ _ _
      (by simp [LayerNormSubLSTMCell.cy, LayerNormSubLSTMCell.gates]; omega),
    chunkCol_row _ _ _ _ (by simp [LayerNormSubLSTMCell.gates]; omega),
    ln_cy_row _ _ _ _ _ _ h₁ h₂ h₃,
    ln_gates_row _ _ _ _ _ h₁ h₂]

theorem lnRowGates_entry (σ : α → α) (c : LayerNormSubLSTMCell α) (r h : List α)
    (I H k : Nat) (hc : c.hasShape I H) (hr : r.length = I) (hh : h.length = H)
    (hk : k < 4 * H) :
    (lnRowGates σ c r h).getD k 0 =
      σ ((c.layernorm_i (specProjRow c.weight_ih r I)).getD k 0 +
        (c.layernorm_h (specProjRow c.weight_hh h H)).getD k 0) := by
  obtain ⟨hwih, hwhh, hlnI, hlnH, hlnC⟩ := hc
  unfold lnRowGates
  rw [getD_map _ _ _
      (by simp [List.length_zipWith, hlnI, hlnH, hwih.1, hwhh.1]; omega) _ 0,
    getD_zipWith _ _ _ _ (by simp [hlnI, hwih.1]; omega)
      (by simp [hlnH, hwhh.1]; omega) _ 0 0,
    projRow_eq_spec c.weight_ih r I hr hwih.2,
    projRow_eq_spec c.weight_hh h H hh hwhh.2]

/-- C6: for every input of shape [B,I] and state pair of shape [B,H],
the NormalizedCell computation (`LayerNormSubLSTMCell.gates`, `.cy`, `.hy`,
the values computed at cell.py lines 57-63) satisfies:
`gates = sigmoid(Norm_i(input·Wih^T) + Norm_h(h_prev·Whh^T))` with two
independent normalization transforms applied to the bias-free projections,
the gates split into (i, f, g, o) slices of width H, then
`c_new = Norm_c(f ⊙ c_prev + (g − i))` with a third independent transform,
and `h_new = tanh(c_new) − o`. -/
theorem claim_C6_layernorm_formula (σ τ : α → α) (c : LayerNormSubLSTMCell α)
    (input hx cx : List (List α)) (B I H b : Nat)
    (hc : c.hasShape I H) (hin : matShape input B I)
    (hhx : matShape hx B H) (hcx : matShape cx B H) (hb : b < B) :
    (∀ k, k < 4 * H →
      ((LayerNormSubLSTMCell.gates σ c input hx).getD b []).getD k 0 =
        σ ((c.layernorm_i (specProjRow c.weight_ih (input.getD b []) I)).getD k 0 +
          (c.layernorm_h (specProjRow c.weight_hh (hx.getD b []) H)).getD k 0)) ∧
    (∃ comb : List α,
      (LayerNormSubLSTMCell.cy σ c input hx cx).getD b [] = c.layernorm_c comb ∧
      comb.length = H ∧
      ∀ j, j < H → comb.getD j 0 =
        ((LayerNormSubLSTMCell.gates σ c input hx).getD b []).getD (H + j) 0 *
            ((cx.getD b []).getD j 0) +
          (((LayerNormSubLSTMCell.gates σ c input hx).getD b []).getD (2 * H + j) 0 -
            ((LayerNormSubLSTMCell.gates σ c input hx).getD b []).getD j 0)) ∧
    (∀ j, j < H →
      ((LayerNormSubLSTMCell.hy σ τ c input hx cx).getD b []).getD j 0 =
        τ (((LayerNormSubLSTMCell.cy σ c input hx cx).getD b []).getD j 0) -
          ((LayerNormSubLSTMCell.gates σ c input hx).getD b []).getD (3 * H + j) 0) := by
  obtain ⟨hi1, hi2⟩ := hin
  obtain ⟨hh1, hh2⟩ := hhx
  obtain ⟨hcx1, hcx2⟩ := hcx
  have hrin : (input.getD b []).length = I := hi2 _ (mem_of_getD _ _ (by omega) _)
  have hrhx : (hx.getD b []).length = H := hh2 _ (mem_of_getD _ _ (by omega) _)
  have hrcx : (cx.getD b []).length = H := hcx2 _ (mem_of_getD _ _ (by omega) _)
  have hg : (lnRowGates σ c (input.getD b []) (hx.getD b [])).length = 4 * H :=
    lnRowGates_length σ c _ _ I H hc
  have hk0 := rowChunk_length_four _ H 0 hg (by norm_num)
  have hk1 := rowChunk_length_four _ H 1 hg (by norm_num)
  have hk2 := rowChunk_length_four _ H 2 hg (by norm_num)
  have hk3 := rowChunk_length_four _ H 3 hg (by norm_num)
  refine ⟨?_, ⟨lnCombRow σ c (input.getD b []) (hx.getD b []) (cx.getD b []),
    ?_, ?_, ?_⟩, ?_⟩
  · intro k hk
    rw [ln_gates_row _ _ _ _ _ (by omega) (by omega)]
    exact lnRowGates_entry σ c _ _ I H k hc hrin hrhx hk
  · rw [ln_cy_row _ _ _ _ _ _ (by omega) (by omega) (by omega)]
    rfl
  · simp only [lnCombRow, List.length_zipWith, hk0, hk1, hk2, hrcx]
    omega
  · intro j hj
    simp only [lnCombRow]
    rw [ln_gates_row _ _ _ _ _ (by omega) (by omega),
      getD_zipWith _ _ _ _ (by simp only [List.length_zipWith, hk1, hrcx]; omega)
        (by simp only [List.length_zipWith, hk2, hk0]; omega) _ 0 0,
      getD_zipWith _ _ _ _ (by omega) (by omega) _ 0 0,
      getD_zipWith _ _ _ _ (by omega) (by omega) _ 0 0,
      rowChunk_entry_four _ H _ _ hg hj, rowChunk_entry_four _ H _ _ hg hj,
      rowChunk_entry_four _ H _ _ hg hj]
    simp only [one_mul, zero_mul, zero_add]
  · intro j hj
    obtain ⟨hwih, hwhh, hlnI, hlnH, hlnC⟩ := hc
    have hcyr : (lnRowCy σ c (input.getD b []) (hx.getD b []) (cx.getD b [])).length
        = H := by
      simp only [lnRowCy, lnCombRow, hlnC, List.length_zipWith, hk0, hk1, hk2, hrcx]
      omega
    rw [ln_hy_row _ _ _ _ _ _ _ (by omega) (by omega) (by omega),
      ln_cy_row _ _ _ _ _ _ (by omega) (by omega) (by omega),
      ln_gates_row _ _ _ _ _ (by omega) (by omega),
      getD_zipWith _ _ _ _ (by simp only [List.length_map, hcyr]; omega)
        (by omega) _ 0 0,
      getD_map _ _ _ (by omega) _ 0,
      rowChunk_entry_four _ H _ _ hg hj]

/-- C8: `fixSubLSTMCell.forward` (FixedForgetCell.update) is invariant to
batching: running row `b` of a batch alone (B = 1) returns exactly row `b`
of the full-batch result, in the output, the hidden-state slot and the
cell-state slot. -/
theorem claim_C8_fix_batch_invariance (σ τ : α → α) (c : fixSubLSTMCell α)
    (input hx cx : List (List α)) (b : Nat)
    (h₁ : b < input.length) (h₂ : b < hx.length) (h₃ : b < cx.length) :
    fixSubLSTMCell.forward σ τ c [input.getD b []] ([hx.getD b []], [cx.getD b []]) =
      ([(fixSubLSTMCell.forward σ τ c input (hx, cx)).1.getD b []],
        ([(fixSubLSTMCell.forward σ τ c input (hx, cx)).1.getD b []],
          [(fixSubLSTMCell.forward σ τ c input (hx, cx)).2.2.getD b []])) := by
  rw [fix_forward_hy_row _ _ _ _ _ _ _ h₁ h₂ h₃,
    fix_forward_cy_row _ _ _ _ _ _ _ h₁ h₂ h₃]
  rfl

/-! ### Decidability of the shape contracts (for concrete evaluation) -/

instance (m : List (List α)) (B N : Nat) : Decidable (matShape m B N) := by
  unfold matShape
  infer_instance

instance (c : SubLSTMCell α) (I H : Nat) : Decidable (c.hasShape I H) := by
  unfold SubLSTMCell.hasShape
  infer_instance

instance (c : fixSubLSTMCell α) (I H : Nat) : Decidable (c.hasShape I H) := by
  unfold fixSubLSTMCell.hasShape
  infer_instance

instance (c : PremulSubLSTMCell α) (H : Nat) : Decidable (c.hasShape H) := by
  unfold PremulSubLSTMCell.hasShape
  infer_instance

/-! ### Concrete cells over ℚ used by the witnesses -/

/-- A concrete four-gate cell with I = H = 1. -/
def qcell4 : SubLSTMCell ℚ :=
  ⟨1, 1, [[1], [2], [3], [4]], [[5], [6], [7], [8]], [1, 1, 1, 1], [2, 2, 2, 2]⟩

/-- A concrete prefused cell sharing `qcell4`'s hidden-side parameters. -/
def qcellP : PremulSubLSTMCell ℚ := ⟨1, 1, [[5], [6], [7], [8]], [2, 2, 2, 2]⟩

/-- A concrete three-gate fixed-forget cell with I = H = 1. -/
def qcell3 : fixSubLSTMCell ℚ :=
  ⟨1, 1, [[1], [2], [3]], [[4], [5], [6]], [1, 1, 1], [2, 2, 2], [7]⟩

/-- A concrete normalized cell with I = H = 1 and identity layernorms. -/
def qcellLN : LayerNormSubLSTMCell ℚ :=
  ⟨1, 1, [[1], [2], [3], [4]], [[5], [6], [7], [8]], id, id, id⟩

/-- A concrete normalized fixed-forget cell with I = H = 1. -/
def qcellLNF : LayerNormFixSubLSTMCell ℚ :=
  ⟨1, 1, [[1], [2], [3]], [[4], [5], [6]], [7], id, id, id⟩

/-- Witness for C1 at B = I = H = 1 over ℚ. -/
theorem claim_C1_basic_update_formula_witness :
    SubLSTMCell.hasShape qcell4 1 1 ∧ matShape [[(1 : ℚ)]] 1 1 ∧
      matShape [[(2 : ℚ)]] 1 1 ∧ matShape [[(3 : ℚ)]] 1 1 ∧ 0 < 1 ∧
      ((((SubLSTMCell.forward (id : ℚ → ℚ) id qcell4 [[1]]
            ([[2]], [[3]])).2.2.getD 0 []).getD 0 0 =
        id (specZ4 qcell4 ([[(1 : ℚ)]].getD 0 []) ([[(2 : ℚ)]].getD 0 []) 1 1
            (1 + 0)) * (([[(3 : ℚ)]].getD 0 []).getD 0 0) +
          (id (specZ4 qcell4 ([[(1 : ℚ)]].getD 0 []) ([[(2 : ℚ)]].getD 0 []) 1 1
              (2 * 1 + 0)) -
            id (specZ4 qcell4 ([[(1 : ℚ)]].getD 0 []) ([[(2 : ℚ)]].getD 0 []) 1 1
              0))) ∧
      (((SubLSTMCell.forward (id : ℚ → ℚ) id qcell4 [[1]]
            ([[2]], [[3]])).1.getD 0 []).getD 0 0 =
        id (((SubLSTMCell.forward (id : ℚ → ℚ) id qcell4 [[1]]
              ([[2]], [[3]])).2.2.getD 0 []).getD 0 0) -
          id (specZ4 qcell4 ([[(1 : ℚ)]].getD 0 []) ([[(2 : ℚ)]].getD 0 []) 1 1
            (3 * 1 + 0)))) :=
  ⟨by decide, by decide, by decide, by decide, by decide,
    claim_C1_basic_update_formula id id qcell4 [[1]] [[2]] [[3]] 1 1 1 0 0
      (by decide) (by decide) (by decide) (by decide) (by decide) (by decide)⟩

/-- Witness for C4 with concrete matching cells over ℚ. -/
theorem claim_C4_prefused_equivalence_witness :
    qcellP.weight_hh = qcell4.weight_hh ∧ qcellP.bias_hh = qcell4.bias_hh ∧
      PremulSubLSTMCell.forward (id : ℚ → ℚ) id qcellP
          (addBias (mmT [[1]] qcell4.weight_ih) qcell4.bias_ih) ([[2]], [[3]]) =
        SubLSTMCell.forward (id : ℚ → ℚ) id qcell4 [[1]] ([[2]], [[3]]) :=
  ⟨rfl, rfl, claim_C4_prefused_equivalence id id qcell4 qcellP [[1]] [[2]] [[3]]
    rfl rfl⟩

/-- Witness for C5 at B = I = H = 1 over ℚ. -/
theorem claim_C5_fix_update_formula_witness :
    fixSubLSTMCell.hasShape qcell3 1 1 ∧ matShape [[(1 : ℚ)]] 1 1 ∧
      matShape [[(2 : ℚ)]] 1 1 ∧ matShape [[(3 : ℚ)]] 1 1 ∧ 0 < 1 ∧
      ((((fixSubLSTMCell.forward (id : ℚ → ℚ) id qcell3 [[1]]
            ([[2]], [[3]])).2.2.getD 0 []).getD 0 0 =
        id (qcell3.forgetgate.getD 0 0) * (([[(3 : ℚ)]].getD 0 []).getD 0 0) +
          (id (specZ3 qcell3 ([[(1 : ℚ)]].getD 0 []) ([[(2 : ℚ)]].getD 0 []) 1 1
              (1 + 0)) -
            id (specZ3 qcell3 ([[(1 : ℚ)]].getD 0 []) ([[(2 : ℚ)]].getD 0 []) 1 1
              0))) ∧
      (((fixSubLSTMCell.forward (id : ℚ → ℚ) id qcell3 [[1]]
            ([[2]], [[3]])).1.getD 0 []).getD 0 0 =
        id (((fixSubLSTMCell.forward (id : ℚ → ℚ) id qcell3 [[1]]
              ([[2]], [[3]])).2.2.getD 0 []).getD 0 0) -
          id (specZ3 qcell3 ([[(1 : ℚ)]].getD 0 []) ([[(2 : ℚ)]].getD 0 []) 1 1
            (2 * 1 + 0)))) :=
  ⟨by decide, by decide, by decide, by decide, by decide,
    claim_C5_fix_update_formula id id qcell3 [[1]] [[2]] [[3]] 1 1 1 0 0
      (by decide) (by decide) (by decide) (by decide) (by decide) (by decide)⟩

/-- Witness for C8: row 1 of a batch of two, over ℚ. -/
theorem claim_C8_fix_batch_invariance_witness :
    1 < ([[(1 : ℚ)], [2]] : List (List ℚ)).length ∧
      1 < ([[(3 : ℚ)], [4]] : List (List ℚ)).length ∧
      1 < ([[(5 : ℚ)], [6]] : List (List ℚ)).length ∧
      fixSubLSTMCell.forward (id : ℚ → ℚ) id qcell3
          [([[(1 : ℚ)], [2]] : List (List ℚ)).getD 1 []]
          ([([[(3 : ℚ)], [4]] : List (List ℚ)).getD 1 []],
            [([[(5 : ℚ)], [6]] : List (List ℚ)).getD 1 []]) =
        ([(fixSubLSTMCell.forward (id : ℚ → ℚ) id qcell3 [[1], [2]]
            ([[3], [4]], [[5], [6]])).1.getD 1 []],
          ([(fixSubLSTMCell.forward (id : ℚ → ℚ) id qcell3 [[1], [2]]
              ([[3], [4]], [[5], [6]])).1.getD 1 []],
            [(fixSubLSTMCell.forward (id : ℚ → ℚ) id qcell3 [[1], [2]]
                ([[3], [4]], [[5], [6]])).2.2.getD 1 []])) :=
  ⟨by decide, by decide, by decide,
    claim_C8_fix_batch_invariance id id qcell3 [[1], [2]] [[3], [4]] [[5], [6]] 1
      (by decide) (by decide) (by decide)⟩

/-- C2 (violated by cell.py line 65): four of the five variants return
`(h_new, (h_new, c_new))` with the public output identical to the
hidden-state slot, for every cell, input and state; but
`LayerNormSubLSTMCell.forward` never returns a value at all — line 65
reads `return hy (hy, cy)` (missing comma), which calls the tensor and
raises TypeError — here evaluated at a shape-conforming input. -/
theorem claim_C2_output_duplication (σ τ : α → α) :
    (∀ (c : SubLSTMCell α) (input : List (List α))
        (s : List (List α) × List (List α)),
      (SubLSTMCell.forward σ τ c input s).2.1 =
        (SubLSTMCell.forward σ τ c input s).1) ∧
    (∀ (c : fixSubLSTMCell α) (input : List (List α))
        (s : List (List α) × List (List α)),
      (fixSubLSTMCell.forward σ τ c input s).2.1 =
        (fixSubLSTMCell.forward σ τ c input s).1) ∧
    (∀ (c : LayerNormFixSubLSTMCell α) (input : List (List α))
        (s : List (List α) × List (List α)),
      (LayerNormFixSubLSTMCell.forward σ τ c input s).2.1 =
        (LayerNormFixSubLSTMCell.forward σ τ c input s).1) ∧
    (∀ (c : PremulSubLSTMCell α) (premul_input : List (List α))
        (s : List (List α) × List (List α)),
      (PremulSubLSTMCell.forward σ τ c premul_input s).2.1 =
        (PremulSubLSTMCell.forward σ τ c premul_input s).1) ∧
    (∀ (c : LayerNormSubLSTMCell α) (input : List (List α))
        (s : List (List α) × List (List α)),
      LayerNormSubLSTMCell.forward σ τ c input s = none) ∧
    LayerNormSubLSTMCell.forward (id : ℚ → ℚ) id qcellLN [[1]] ([[2]], [[3]]) =
      none :=
  ⟨fun _ _ _ => rfl, fun _ _ _ => rfl, fun _ _ _ => rfl, fun _ _ _ => rfl,
    fun _ _ _ => rfl, rfl⟩

/-- C3 (violated by cell.py line 65): the claim says an update with
shape-conforming arguments completes without raising; yet with I = H = 1
and conforming [1,1]-shaped input and states (shown by the `matShape`
conjuncts), `LayerNormSubLSTMCell.forward` produces no value: the
TypeError of `return hy (hy, cy)` is not a shape-precondition violation
by the caller. -/
theorem claim_C3_conforming_update_raises :
    matShape [[(5 : ℚ)]] 1 1 ∧ matShape [[(6 : ℚ)]] 1 1 ∧
      matShape [[(7 : ℚ)]] 1 1 ∧ matShape qcellLN.weight_ih 4 1 ∧
      matShape qcellLN.weight_hh 4 1 ∧
      LayerNormSubLSTMCell.forward (id : ℚ → ℚ) id qcellLN [[5]]
        ([[6]], [[7]]) = none :=
  ⟨by decide, by decide, by decide, by decide, by decide, rfl⟩

/-- C7 (violated for one of the five variants): at B = 2, I = H = 1, the
four well-formed variants return `h_new` and `c_new` of shape [B,H] = [2,1],
but `LayerNormSubLSTMCell.forward` returns no tensors at all (cell.py
line 65 raises before returning). -/
theorem claim_C7_output_shapes :
    matShape (SubLSTMCell.forward (id : ℚ → ℚ) id qcell4 [[1], [2]]
      ([[3], [4]], [[5], [6]])).1 2 1 ∧
    matShape (SubLSTMCell.forward (id : ℚ → ℚ) id qcell4 [[1], [2]]
      ([[3], [4]], [[5], [6]])).2.2 2 1 ∧
    matShape (fixSubLSTMCell.forward (id : ℚ → ℚ) id qcell3 [[1], [2]]
      ([[3], [4]], [[5], [6]])).1 2 1 ∧
    matShape (fixSubLSTMCell.forward (id : ℚ → ℚ) id qcell3 [[1], [2]]
      ([[3], [4]], [[5], [6]])).2.2 2 1 ∧
    matShape (LayerNormFixSubLSTMCell.forward (id : ℚ → ℚ) id qcellLNF [[1], [2]]
      ([[3], [4]], [[5], [6]])).1 2 1 ∧
    matShape (LayerNormFixSubLSTMCell.forward (id : ℚ → ℚ) id qcellLNF [[1], [2]]
      ([[3], [4]], [[5], [6]])).2.2 2 1 ∧
    matShape (PremulSubLSTMCell.forward (id : ℚ → ℚ) id qcellP
      [[1, 2, 3, 4], [5, 6, 7, 8]] ([[3], [4]], [[5], [6]])).1 2 1 ∧
    matShape (PremulSubLSTMCell.forward (id : ℚ → ℚ) id qcellP
      [[1, 2, 3, 4], [5, 6, 7, 8]] ([[3], [4]], [[5], [6]])).2.2 2 1 ∧
    LayerNormSubLSTMCell.forward (id : ℚ → ℚ) id qcellLN [[1], [2]]
      ([[3], [4]], [[5], [6]]) = none := by
  decide

/-- C9: every update is a deterministic pure function of the cell's
parameter values, the input and the state: two cells with equal parameters
(whatever their bookkeeping `input_size`/`hidden_size` fields) map equal
inputs and states to equal results, for each of the five variants; the
embedding is a total function of its arguments, so a call mutates neither
the parameters nor the caller's tensors. -/
theorem claim_C9_update_deterministic (σ τ : α → α) (input : List (List α))
    (s : List (List α) × List (List α)) :
    (∀ c₁ c₂ : SubLSTMCell α, c₁.weight_ih = c₂.weight_ih →
      c₁.weight_hh = c₂.weight_hh → c₁.bias_ih = c₂.bias_ih →
      c₁.bias_hh = c₂.bias_hh →
      SubLSTMCell.forward σ τ c₁ input s = SubLSTMCell.forward σ τ c₂ input s) ∧
    (∀ c₁ c₂ : fixSubLSTMCell α, c₁.weight_ih = c₂.weight_ih →
      c₁.weight_hh = c₂.weight_hh → c₁.bias_ih = c₂.bias_ih →
      c₁.bias_hh = c₂.bias_hh → c₁.forgetgate = c₂.forgetgate →
      fixSubLSTMCell.forward σ τ c₁ input s = fixSubLSTMCell.forward σ τ c₂ input s) ∧
    (∀ c₁ c₂ : LayerNormSubLSTMCell α, c₁.weight_ih = c₂.weight_ih →
      c₁.weight_hh = c₂.weight_hh → c₁.layernorm_i = c₂.layernorm_i →
      c₁.layernorm_h = c₂.layernorm_h → c₁.layernorm_c = c₂.layernorm_c →
      LayerNormSubLSTMCell.forward σ τ c₁ input s =
        LayerNormSubLSTMCell.forward σ τ c₂ input s) ∧
    (∀ c₁ c₂ : LayerNormFixSubLSTMCell α, c₁.weight_ih = c₂.weight_ih →
      c₁.weight_hh = c₂.weight_hh → c₁.forgetgate = c₂.forgetgate →
      c₁.layernorm_i = c₂.layernorm_i → c₁.layernorm_h = c₂.layernorm_h →
      c₁.layernorm_c = c₂.layernorm_c →
      LayerNormFixSubLSTMCell.forward σ τ c₁ input s =
        LayerNormFixSubLSTMCell.forward σ τ c₂ input s) ∧
    (∀ c₁ c₂ : PremulSubLSTMCell α, c₁.weight_hh = c₂.weight_hh →
      c₁.bias_hh = c₂.bias_hh →
      PremulSubLSTMCell.forward σ τ c₁ input s =
        PremulSubLSTMCell.forward σ τ c₂ input s) := by
  refine ⟨?_, ?_, ?_, ?_, ?_⟩ <;>
    · intro c₁ c₂
      cases c₁
      cases c₂
      intros
      subst_vars
      rfl

/-- Witness for C9: two basic cells with equal parameters but different
bookkeeping size fields produce the same result. -/
theorem claim_C9_update_deterministic_witness :
    SubLSTMCell.forward (id : ℚ → ℚ) id qcell4 [[1]] ([[2]], [[3]]) =
      SubLSTMCell.forward (id : ℚ → ℚ) id
        ⟨2, 3, qcell4.weight_ih, qcell4.weight_hh, qcell4.bias_ih, qcell4.bias_hh⟩
        [[1]] ([[2]], [[3]]) :=
  (claim_C9_update_deterministic id id [[1]] ([[2]], [[3]])).1 qcell4
    ⟨2, 3, qcell4.weight_ih, qcell4.weight_hh, qcell4.bias_ih, qcell4.bias_hh⟩
    rfl rfl rfl rfl

/-! ### Matrix-level gate and hidden-state entry lemmas -/

theorem basic_gates_entry (σ : α → α) (c : SubLSTMCell α)
    (input hx : List (List α)) (B I H b k : Nat) (hc : c.hasShape I H)
    (hin : matShape input B I) (hhx : matShape hx B H)
    (hb : b < B) (hk : k < 4 * H) :
    ((SubLSTMCell.gates σ c input hx).getD b []).getD k 0 =
      σ (specZ4 c (input.getD b []) (hx.getD b []) I H k) := by
  obtain ⟨hi1, hi2⟩ := hin
  obtain ⟨hh1, hh2⟩ := hhx
  rw [basic_gates_row _ _ _ _ _ (by omega) (by omega)]
  exact affRowGates_entry σ _ _ _ _ _ _ (4 * H) I H k hc.1 hc.2.1 hc.2.2.1 hc.2.2.2
    (hi2 _ (mem_of_getD _ _ (by omega) _)) (hh2 _ (mem_of_getD _ _ (by omega) _)) hk

theorem fix_gates_entry (σ : α → α) (c : fixSubLSTMCell α)
    (input hx : List (List α)) (B I H b k : Nat) (hc : c.hasShape I H)
    (hin : matShape input B I) (hhx : matShape hx B H)
    (hb : b < B) (hk : k < 3 * H) :
    ((fixSubLSTMCell.gates σ c input hx).getD b []).getD k 0 =
      σ (specZ3 c (input.getD b []) (hx.getD b []) I H k) := by
  obtain ⟨hi1, hi2⟩ := hin
  obtain ⟨hh1, hh2⟩ := hhx
  rw [fix_gates_row _ _ _ _ _ (by omega) (by omega)]
  exact affRowGates_entry σ _ _ _ _ _ _ (3 * H) I H k hc.1 hc.2.1 hc.2.2.1
    hc.2.2.2.1 (hi2 _ (mem_of_getD _ _ (by omega) _))
    (hh2 _ (mem_of_getD _ _ (by omega) _)) hk

theorem premul_gates_entry (σ : α → α) (c : PremulSubLSTMCell α)
    (pin hx : List (List α)) (B H b k : Nat) (hc : c.hasShape H)
    (hpin : matShape pin B (4 * H)) (hhx : matShape hx B H)
    (hb : b < B) (hk : k < 4 * H) :
    ((PremulSubLSTMCell.gates σ c pin hx).getD b []).getD k 0 =
      σ (specZP c (pin.getD b []) (hx.getD b []) H k) := by
  obtain ⟨hp1, hp2⟩ := hpin
  obtain ⟨hh1, hh2⟩ := hhx
  rw [premul_gates_row _ _ _ _ _ (by omega) (by omega)]
  exact premulRowGates_entry σ _ _ _ (4 * H) H k
    (hp2 _ (mem_of_getD _ _ (by omega) _)) hc.1 hc.2
    (hh2 _ (mem_of_getD _ _ (by omega) _)) hk

theorem basic_hy_entry (σ τ : α → α) (c : SubLSTMCell α)
    (input hx cx : List (List α)) (B I H b j : Nat) (hc : c.hasShape I H)
    (hin : matShape input B I) (hhx : matShape hx B H) (hcx : matShape cx B H)
    (hb : b < B) (hj : j < H) :
    ((SubLSTMCell.forward σ τ c input (hx, cx)).1.getD b []).getD j 0 =
      τ ((basicRowCy σ c (input.getD b []) (hx.getD b []) (cx.getD b [])).getD j 0) -
        σ (specZ4 c (input.getD b []) (hx.getD b []) I H (3 * H + j)) := by
  obtain ⟨hi1, hi2⟩ := hin
  obtain ⟨hh1, hh2⟩ := hhx
  obtain ⟨hcx1, hcx2⟩ := hcx
  rw [basic_forward_hy_row _ _ _ _ _ _ _ (by omega) (by omega) (by omega)]
  exact basicRowHy_entry σ τ c _ _ _ I H j hc
    (hi2 _ (mem_of_getD _ _ (by omega) _)) (hh2 _ (mem_of_getD _ _ (by omega) _))
    (hcx2 _ (mem_of_getD _ _ (by omega) _)) hj

theorem fix_hy_entry (σ τ : α → α) (c : fixSubLSTMCell α)
    (input hx cx : List (List α)) (B I H b j : Nat) (hc : c.hasShape I H)
    (hin : matShape input B I) (hhx : matShape hx B H) (hcx : matShape cx B H)
    (hb : b < B) (hj : j < H) :
    ((fixSubLSTMCell.forward σ τ c input (hx, cx)).1.getD b []).getD j 0 =
      τ ((fixRowCy σ c (input.getD b []) (hx.getD b []) (cx.getD b [])).getD j 0) -
        σ (specZ3 c (input.getD b []) (hx.getD b []) I H (2 * H + j)) := by
  obtain ⟨hi1, hi2⟩ := hin
  obtain ⟨hh1, hh2⟩ := hhx
  obtain ⟨hcx1, hcx2⟩ := hcx
  rw [fix_forward_hy_row _ _ _ _ _ _ _ (by omega) (by omega) (by omega)]
  exact fixRowHy_entry σ τ c _ _ _ I H j hc
    (hi2 _ (mem_of_getD _ _ (by omega) _)) (hh2 _ (mem_of_getD _ _ (by omega) _))
    (hcx2 _ (mem_of_getD _ _ (by omega) _)) hj

theorem premul_hy_entry (σ τ : α → α) (c : PremulSubLSTMCell α)
    (pin hx cx : List (List α)) (B H b j : Nat) (hc : c.hasShape H)
    (hpin : matShape pin B (4 * H)) (hhx : matShape hx B H) (hcx : matShape cx B H)
    (hb : b < B) (hj : j < H) :
    ((PremulSubLSTMCell.forward σ τ c pin (hx, cx)).1.getD b []).getD j 0 =
      τ ((premulRowCy σ c (pin.getD b []) (hx.getD b []) (cx.getD b [])).getD j 0) -
        σ (specZP c (pin.getD b []) (hx.getD b []) H (3 * H + j)) := by
  obtain ⟨hp1, hp2⟩ := hpin
  obtain ⟨hh1, hh2⟩ := hhx
  obtain ⟨hcx1, hcx2⟩ := hcx
  rw [premul_forward_hy_row _ _ _ _ _ _ _ (by omega) (by omega) (by omega)]
  exact premulRowHy_entry σ τ c _ _ _ H j hc
    (hp2 _ (mem_of_getD _ _ (by omega) _)) (hh2 _ (mem_of_getD _ _ (by omega) _))
    (hcx2 _ (mem_of_getD _ _ (by omega) _)) hj

/-! ### The host engine's sigmoid and tanh over ℝ, and their ranges -/

/-- The logistic sigmoid `torch.sigmoid`. -/
noncomputable def sigmoid (x : ℝ) : ℝ := 1 / (1 + Real.exp (-x))

theorem sigmoid_pos (x : ℝ) : 0 < sigmoid x := by
  unfold sigmoid
  positivity

theorem sigmoid_lt_one (x : ℝ) : sigmoid x < 1 := by
  unfold sigmoid
  rw [div_lt_one (by positivity)]
  linarith [Real.exp_pos (-x)]

theorem tanh_lt_one (x : ℝ) : Real.tanh x < 1 := by
  rw [Real.tanh_eq_sinh_div_cosh, div_lt_one (Real.cosh_pos x)]
  exact Real.sinh_lt_cosh x

theorem neg_one_lt_tanh (x : ℝ) : -1 < Real.tanh x := by
  have h := tanh_lt_one (-x)
  rw [Real.tanh_neg] at h
  linarith

theorem sigmoid_sub_bounds (x y : ℝ) :
    -1 < sigmoid x - sigmoid y ∧ sigmoid x - sigmoid y < 1 := by
  have h1 := sigmoid_pos x
  have h2 := sigmoid_lt_one x
  have h3 := sigmoid_pos y
  have h4 := sigmoid_lt_one y
  exact ⟨by linarith, by linarith⟩

theorem sigmoid_mul_abs_le (x v : ℝ) : |sigmoid x * v| ≤ |v| := by
  rw [abs_mul, abs_of_pos (sigmoid_pos x)]
  exact mul_le_of_le_one_left (abs_nonneg _) (sigmoid_lt_one x).le

theorem tanh_sub_sigmoid_bounds (x y : ℝ) :
    -2 < Real.tanh x - sigmoid y ∧ Real.tanh x - sigmoid y < 1 := by
  have h1 := neg_one_lt_tanh x
  have h2 := tanh_lt_one x
  have h3 := sigmoid_pos y
  have h4 := sigmoid_lt_one y
  exact ⟨by linarith, by linarith⟩

/-- C10 (implicit invariants): with the host sigmoid and tanh over ℝ, in
`SubLSTMCell`, `fixSubLSTMCell` and `PremulSubLSTMCell` every gate entry
(and `sigmoid(fg)` in the fixed-forget cell) lies strictly in (0,1); the
additive input contribution `g − i` to `c_new` lies strictly in (−1,1) per
entry; the retained memory `f ⊙ c_prev` never exceeds `c_prev` in
magnitude; and every entry of `h_new = tanh(c_new) − o` lies strictly in
(−2,1). -/
theorem claim_C10_gate_range_invariants
    (c : SubLSTMCell ℝ) (cf : fixSubLSTMCell ℝ) (cp : PremulSubLSTMCell ℝ)
    (input hx cx pin : List (List ℝ)) (B I H b j : Nat)
    (hc : c.hasShape I H) (hcf : cf.hasShape I H) (hcp : cp.hasShape H)
    (hin : matShape input B I) (hhx : matShape hx B H) (hcx : matShape cx B H)
    (hpin : matShape pin B (4 * H)) (hb : b < B) (hj : j < H) :
    ((∀ k, k < 4 * H →
        0 < ((SubLSTMCell.gates sigmoid c input hx).getD b []).getD k 0 ∧
          ((SubLSTMCell.gates sigmoid c input hx).getD b []).getD k 0 < 1) ∧
      (-1 < ((SubLSTMCell.gates sigmoid c input hx).getD b []).getD (2 * H + j) 0 -
            ((SubLSTMCell.gates sigmoid c input hx).getD b []).getD j 0 ∧
        ((SubLSTMCell.gates sigmoid c input hx).getD b []).getD (2 * H + j) 0 -
          ((SubLSTMCell.gates sigmoid c input hx).getD b []).getD j 0 < 1) ∧
      |((SubLSTMCell.gates sigmoid c input hx).getD b []).getD (H + j) 0 *
          ((cx.getD b []).getD j 0)| ≤ |(cx.getD b []).getD j 0| ∧
      (-2 < ((SubLSTMCell.forward sigmoid Real.tanh c input
            (hx, cx)).1.getD b []).getD j 0 ∧
        ((SubLSTMCell.forward sigmoid Real.tanh c input
          (hx, cx)).1.getD b []).getD j 0 < 1)) ∧
    ((∀ k, k < 3 * H →
        0 < ((fixSubLSTMCell.gates sigmoid cf input hx).getD b []).getD k 0 ∧
          ((fixSubLSTMCell.gates sigmoid cf input hx).getD b []).getD k 0 < 1) ∧
      (0 < sigmoid (cf.forgetgate.getD j 0) ∧
        sigmoid (cf.forgetgate.getD j 0) < 1) ∧
      (-1 < ((fixSubLSTMCell.gates sigmoid cf input hx).getD b []).getD (H + j) 0 -
            ((fixSubLSTMCell.gates sigmoid cf input hx).getD b []).getD j 0 ∧
        ((fixSubLSTMCell.gates sigmoid cf input hx).getD b []).getD (H + j) 0 -
          ((fixSubLSTMCell.gates sigmoid cf input hx).getD b []).getD j 0 < 1) ∧
      |sigmoid (cf.forgetgate.getD j 0) * ((cx.getD b []).getD j 0)| ≤
        |(cx.getD b []).getD j 0| ∧
      (-2 < ((fixSubLSTMCell.forward sigmoid Real.tanh cf input
            (hx, cx)).1.getD b []).getD j 0 ∧
        ((fixSubLSTMCell.forward sigmoid Real.tanh cf input
          (hx, cx)).1.getD b []).getD j 0 < 1)) ∧
    ((∀ k, k < 4 * H →
        0 < ((PremulSubLSTMCell.gates sigmoid cp pin hx).getD b []).getD k 0 ∧
          ((PremulSubLSTMCell.gates sigmoid cp pin hx).getD b []).getD k 0 < 1) ∧
      (-1 < ((PremulSubLSTMCell.gates sigmoid cp pin hx).getD b []).getD (2 * H + j) 0 -
            ((PremulSubLSTMCell.gates sigmoid cp pin hx).getD b []).getD j 0 ∧
        ((PremulSubLSTMCell.gates sigmoid cp pin hx).getD b []).getD (2 * H + j) 0 -
          ((PremulSubLSTMCell.gates sigmoid cp pin hx).getD b []).getD j 0 < 1) ∧
      |((PremulSubLSTMCell.gates sigmoid cp pin hx).getD b []).getD (H + j) 0 *
          ((cx.getD b []).getD j 0)| ≤ |(cx.getD b []).getD j 0| ∧
      (-2 < ((PremulSubLSTMCell.forward sigmoid Real.tanh cp pin
            (hx, cx)).1.getD b []).getD j 0 ∧
        ((PremulSubLSTMCell.forward sigmoid Real.tanh cp pin
          (hx, cx)).1.getD b []).getD j 0 < 1)) := by
  refine ⟨⟨?_, ?_, ?_, ?_⟩, ⟨?_, ?_, ?_, ?_, ?_⟩, ⟨?_, ?_, ?_, ?_⟩⟩
  · intro k hk
    rw [basic_gates_entry sigmoid c input hx B I H b k hc hin hhx hb hk]
    exact ⟨sigmoid_pos _, sigmoid_lt_one _⟩
  · rw [basic_gates_entry sigmoid c input hx B I H b _ hc hin hhx hb
      (by omega),
      basic_gates_entry sigmoid c input hx B I H b j hc hin hhx hb (by omega)]
    exact sigmoid_sub_bounds _ _
  · rw [basic_gates_entry sigmoid c input hx B I H b _ hc hin hhx hb
      (by omega)]
    exact sigmoid_mul_abs_le _ _
  · rw [basic_hy_entry sigmoid Real.tanh c input hx cx B I H b j hc hin hhx
      hcx hb hj]
    exact tanh_sub_sigmoid_bounds _ _
  · intro k hk
    rw [fix_gates_entry sigmoid cf input hx B I H b k hcf hin hhx hb hk]
    exact ⟨sigmoid_pos _, sigmoid_lt_one _⟩
  · exact ⟨sigmoid_pos _, sigmoid_lt_one _⟩
  · rw [fix_gates_entry sigmoid cf input hx B I H b _ hcf hin hhx hb
      (by omega),
      fix_gates_entry sigmoid cf input hx B I H b j hcf hin hhx hb
      (by omega)]
    exact sigmoid_sub_bounds _ _
  · exact sigmoid_mul_abs_le _ _
  · rw [fix_hy_entry sigmoid Real.tanh cf input hx cx B I H b j hcf hin
      hhx hcx hb hj]
    exact tanh_sub_sigmoid_bounds _ _
  · intro k hk
    rw [premul_gates_entry sigmoid cp pin hx B H b k hcp hpin hhx hb hk]
    exact ⟨sigmoid_pos _, sigmoid_lt_one _⟩
  · rw [premul_gates_entry sigmoid cp pin hx B H b _ hcp hpin hhx hb
      (by omega),
      premul_gates_entry sigmoid cp pin hx B H b j hcp hpin hhx hb
      (by omega)]
    exact sigmoid_sub_bounds _ _
  · rw [premul_gates_entry sigmoid cp pin hx B H b _ hcp hpin hhx hb
      (by omega)]
    exact sigmoid_mul_abs_le _ _
  · rw [premul_hy_entry sigmoid Real.tanh cp pin hx cx B H b j hcp hpin
      hhx hcx hb hj]
    exact tanh_sub_sigmoid_bounds _ _

/-- A concrete four-gate cell over ℝ with I = H = 1 (all parameters 0). -/
def rcell4 : SubLSTMCell ℝ :=
  ⟨1, 1, [[0], [0], [0], [0]], [[0], [0], [0], [0]], [0, 0, 0, 0], [0, 0, 0, 0]⟩

/-- A concrete three-gate fixed-forget cell over ℝ with I = H = 1. -/
def rcell3 : fixSubLSTMCell ℝ :=
  ⟨1, 1, [[0], [0], [0]], [[0], [0], [0]], [0, 0, 0], [0, 0, 0], [0]⟩

/-- A concrete prefused cell over ℝ with H = 1. -/
def rcellP : PremulSubLSTMCell ℝ := ⟨1, 1, [[0], [0], [0], [0]], [0, 0, 0, 0]⟩

/-- Witness for C10 at B = I = H = 1 over ℝ: the hypotheses hold at the
concrete cells and inputs, and the first gate entry of the basic cell is
strictly positive there. -/
theorem claim_C10_gate_range_invariants_witness :
    SubLSTMCell.hasShape rcell4 1 1 ∧ fixSubLSTMCell.hasShape rcell3 1 1 ∧
      PremulSubLSTMCell.hasShape rcellP 1 ∧ matShape [[(0 : ℝ)]] 1 1 ∧
      matShape [[(0 : ℝ), 0, 0, 0]] 1 (4 * 1) ∧ 0 < 1 ∧
      0 < ((SubLSTMCell.gates sigmoid rcell4 [[0]] [[0]]).getD 0 []).getD 0 0 :=
  ⟨by decide, by decide, by decide, by decide, by decide, by decide,
    ((claim_C10_gate_range_invariants rcell4 rcell3 rcellP [[0]] [[0]] [[0]]
      [[0, 0, 0, 0]] 1 1 1 0 0 (by decide) (by decide) (by decide) (by decide)
      (by decide) (by decide) (by decide) (by decide) (by decide)).1.1 0
      (by decide)).1⟩

/-- Witness for C6 at B = I = H = 1 over ℚ with identity layernorms. -/
theorem claim_C6_layernorm_formula_witness :
    LayerNormSubLSTMCell.hasShape qcellLN 1 1 ∧ matShape [[(1 : ℚ)]] 1 1 ∧
      matShape [[(2 : ℚ)]] 1 1 ∧ matShape [[(3 : ℚ)]] 1 1 ∧ 0 < 1 ∧
      ((LayerNormSubLSTMCell.gates (id : ℚ → ℚ) qcellLN [[1]] [[2]]).getD 0
          []).getD 0 0 =
        id ((qcellLN.layernorm_i (specProjRow qcellLN.weight_ih
              ([[(1 : ℚ)]].getD 0 []) 1)).getD 0 0 +
          (qcellLN.layernorm_h (specProjRow qcellLN.weight_hh
            ([[(2 : ℚ)]].getD 0 []) 1)).getD 0 0) := by
  have hsh : LayerNormSubLSTMCell.hasShape qcellLN 1 1 :=
    ⟨by decide, by decide, fun r => rfl, fun r => rfl, fun r => rfl⟩
  exact ⟨hsh, by decide, by decide, by decide, by decide,
    (claim_C6_layernorm_formula id id qcellLN [[1]] [[2]] [[3]] 1 1 1 0 hsh
      (by decide) (by decide) (by decide) (by decide)).1 0 (by decide)⟩

end SubLSTMVerify
